import Mathlib

/-!
# Verification of the Database-Chatbot API generator (`src/main.py`)

Shallow embedding of the program's core operations:

* `connect_to_db`        — the Connector (dispatch on the database-kind label,
  catch-all exception handling, `None` sentinel on failure);
* `analyze_db_structure` — the Introspector (per-kind structure discovery,
  partial results on mid-loop failure);
* `generate_fastapi_api` — the Endpoint Synthesizer (route registration and
  the handlers' closure over the synthesis loop's local variables);
* the JSON persistence of the structure mapping and the top-level
  "Analyze DB Details" button handler.

Python dictionaries are embedded as association lists in insertion order
(`pyInsert` overwrites in place or appends, exactly like `d[k] = v`);
Python string-keyed lookup is `pyLookup`.  Exceptions are embedded with
`Except`/`Option`: a `try` body is a value of `Except String _` and the
enclosing handler turns errors into the surfaced message plus the
function's sentinel result.
-/

/-- Metadata value stored for one entity of the structure mapping: the
Python dicts `{"columns": [...]}` and/or `{"keys": [...]}` of `main.py`.
`none` means the corresponding key is absent from the dict. -/
structure TableMeta where
  columns : Option (List String) := none
  keys : Option (List String) := none
  deriving DecidableEq, Repr

/-- The structure mapping `db_structure`: a Python dict from entity name to
its metadata, kept in insertion order. -/
abbrev DbStructure := List (String × TableMeta)

/-- Python dict assignment `d[k] = v`: overwrite in place when the key is
present, append otherwise. -/
def pyInsert {α : Type} (d : List (String × α)) (k : String) (v : α) :
    List (String × α) :=
  if k ∈ d.map Prod.fst then
    d.map (fun p => if p.1 = k then (k, v) else p)
  else
    d ++ [(k, v)]

/-- Python dict lookup `d[k]` (as an `Option`). -/
def pyLookup {α : Type} (d : List (String × α)) (k : String) : Option α :=
  match d with
  | [] => none
  | p :: rest => if p.1 = k then some p.2 else pyLookup rest k

theorem pyLookup_append {α : Type} (d₁ d₂ : List (String × α)) (k : String) :
    pyLookup (d₁ ++ d₂) k =
      match pyLookup d₁ k with
      | some v => some v
      | none => pyLookup d₂ k := by
  induction d₁ with
  | nil => simp [pyLookup]
  | cons p rest ih =>
    by_cases h : p.1 = k <;> simp [pyLookup, h, ih]

theorem pyLookup_eq_none {α : Type} (d : List (String × α)) (k : String)
    (h : k ∉ d.map Prod.fst) : pyLookup d k = none := by
  induction d with
  | nil => rfl
  | cons p rest ih =>
    simp only [List.map_cons, List.mem_cons] at h
    push_neg at h
    simp [pyLookup, Ne.symm h.1, ih h.2]

theorem pyLookup_pyInsert_self {α : Type} (d : List (String × α)) (k : String)
    (v : α) : pyLookup (pyInsert d k v) k = some v := by
  unfold pyInsert
  split
  · rename_i hmem
    induction d with
    | nil => simp at hmem
    | cons p rest ih =>
      by_cases h : p.1 = k
      · simp [pyLookup, h]
      · simp only [List.map_cons, List.mem_cons] at hmem
        rcases hmem with h' | hmem
        · exact absurd h'.symm h
        · simp [pyLookup, h, ih hmem]
  · rename_i hmem
    rw [pyLookup_append, pyLookup_eq_none d k hmem]
    simp [pyLookup]

theorem pyLookup_overwrite_ne {α : Type} (d : List (String × α))
    (k k' : String) (v : α) (h : k' ≠ k) :
    pyLookup (d.map (fun p => if p.1 = k then (k, v) else p)) k'
      = pyLookup d k' := by
  induction d with
  | nil => rfl
  | cons p rest ih =>
    simp only [List.map_cons]
    by_cases hp : p.1 = k
    · have hp' : p.1 ≠ k' := by rw [hp]; exact Ne.symm h
      rw [if_pos hp]
      simp [pyLookup, Ne.symm h, hp', ih]
    · rw [if_neg hp]
      by_cases hp' : p.1 = k'
      · simp [pyLookup, hp']
      · simp [pyLookup, hp', ih]

theorem map_overwrite_of_not_mem {α : Type} (d : List (String × α))
    (k : String) (v : α) (hmem : k ∉ d.map Prod.fst) :
    d.map (fun p => if p.1 = k then (k, v) else p) = d := by
  have : ∀ p ∈ d, (fun p : String × α => if p.1 = k then (k, v) else p) p
      = id p := by
    intro p hp
    have hne : p.1 ≠ k := fun h => hmem (List.mem_map.mpr ⟨p, hp, h⟩)
    simp [hne]
  rw [List.map_congr_left this, List.map_id]

theorem pyLookup_pyInsert_ne {α : Type} (d : List (String × α)) (k k' : String)
    (v : α) (h : k' ≠ k) : pyLookup (pyInsert d k v) k' = pyLookup d k' := by
  unfold pyInsert
  split
  · exact pyLookup_overwrite_ne d k k' v h
  · rw [pyLookup_append]
    cases hd : pyLookup d k' with
    | some v' => rfl
    | none => simp [pyLookup, Ne.symm h]

theorem map_fst_pyInsert {α : Type} (d : List (String × α)) (k : String)
    (v : α) :
    (pyInsert d k v).map Prod.fst =
      if k ∈ d.map Prod.fst then d.map Prod.fst
      else d.map Prod.fst ++ [k] := by
  unfold pyInsert
  split
  · rename_i hmem
    simp only [hmem, if_true, List.map_map]
    apply List.map_congr_left
    intro p _
    by_cases h : p.1 = k <;> simp [h]
  · rename_i hmem
    simp [hmem]

theorem mem_map_fst_pyInsert {α : Type} (d : List (String × α)) (k x : String)
    (v : α) :
    x ∈ (pyInsert d k v).map Prod.fst ↔ x ∈ d.map Prod.fst ∨ x = k := by
  rw [map_fst_pyInsert]
  split
  · rename_i hmem
    constructor
    · exact Or.inl
    · rintro (h | rfl)
      · exact h
      · exact hmem
  · simp

theorem length_pyInsert {α : Type} (d : List (String × α)) (k : String)
    (v : α) :
    (pyInsert d k v).length =
      if k ∈ d.map Prod.fst then d.length else d.length + 1 := by
  unfold pyInsert
  split <;> simp_all

theorem pyInsert_pyInsert_same {α : Type} (d : List (String × α)) (k : String)
    (v w : α) : pyInsert (pyInsert d k v) k w = pyInsert d k w := by
  unfold pyInsert
  by_cases hmem : k ∈ d.map Prod.fst
  · simp only [hmem, if_true, List.map_map]
    have : k ∈ (d.map fun p => if p.1 = k then (k, v) else p).map Prod.fst := by
      simp only [List.map_map]
      rcases List.mem_map.mp hmem with ⟨p, hp, hpk⟩
      exact List.mem_map.mpr ⟨p, hp, by simp [hpk]⟩
    simp only [List.map_map] at this
    simp only [this, if_true, List.map_map]
    apply List.map_congr_left
    intro p _
    by_cases h : p.1 = k <;> simp [h]
  · simp only [hmem, if_false]
    have : k ∈ (d ++ [(k, v)]).map Prod.fst := by simp
    simp only [this, if_true, List.map_append]
    rw [map_overwrite_of_not_mem d k w hmem]
    simp

/-!
## The Introspector: `analyze_db_structure` (src/main.py lines 88-138)

The live connection handles of the third-party client libraries are
abstracted as pure data describing exactly what the code observes through
them.  A database cursor is the pair of query results the relational (and
SQLite) branches fetch; query rows are lists of fields (`fetchall` returns
tuples, the code indexes them), and indexing past the end of a row is the
`IndexError` the catch-all intercepts.
-/

/-- A DB-API cursor, abstracted as the results of the two queries the code
runs: the table-listing query and, per table name, the column query
(`information_schema.columns` for the relational kinds, `PRAGMA table_info`
for SQLite).  `Except.error` is an exception raised by `execute`/`fetchall`. -/
structure Cursor where
  tablesQuery : Except String (List (List String))
  columnsQuery : String → Except String (List (List String))

/-- `[col[0] for col in columns]` — first field of each row, `none` when a
row is too short (the comprehension raises `IndexError`). -/
def firstFields : List (List String) → Option (List String)
  | [] => some []
  | row :: rest =>
    match row[0]? with
    | none => none
    | some c => (firstFields rest).map (fun l => c :: l)

/-- `[col[1] for col in columns]` — second field of each row (the column
name position of `PRAGMA table_info`). -/
def secondFields : List (List String) → Option (List String)
  | [] => some []
  | row :: rest =>
    match row[1]? with
    | none => none
    | some c => (secondFields rest).map (fun l => c :: l)

/-- The relational `for table in tables:` loop.  On the first exception the
loop stops and the partially-filled `db_structure` built so far is what the
enclosing `except` hands back, together with the error. -/
def relLoop (cur : Cursor) :
    List (List String) → DbStructure → DbStructure × Option String
  | [], acc => (acc, none)
  | row :: rest, acc =>
    match row[0]? with
    | none => (acc, some "IndexError")
    | some table_name =>
      match cur.columnsQuery table_name with
      | Except.error e => (acc, some e)
      | Except.ok colRows =>
        match firstFields colRows with
        | none => (acc, some "IndexError")
        | some cols =>
          relLoop cur rest
            (pyInsert acc table_name { columns := some cols, keys := none })

/-- Relational branch (PostgreSQL / MySQL / Microsoft SQL Server):
`SELECT table_name FROM information_schema.tables ...`, then one column
query per table. -/
def analyzeRel (cur : Cursor) : DbStructure × Option String :=
  match cur.tablesQuery with
  | Except.error e => ([], some e)
  | Except.ok rows => relLoop cur rows []

/-- The SQLite `for table in tables:` loop — identical to the relational
one except that `PRAGMA table_info` rows carry the column name in field 1. -/
def sqliteLoop (cur : Cursor) :
    List (List String) → DbStructure → DbStructure × Option String
  | [], acc => (acc, none)
  | row :: rest, acc =>
    match row[0]? with
    | none => (acc, some "IndexError")
    | some table_name =>
      match cur.columnsQuery table_name with
      | Except.error e => (acc, some e)
      | Except.ok colRows =>
        match secondFields colRows with
        | none => (acc, some "IndexError")
        | some cols =>
          sqliteLoop cur rest
            (pyInsert acc table_name { columns := some cols, keys := none })

/-- SQLite branch: `SELECT name FROM sqlite_master WHERE type='table'`,
then `PRAGMA table_info({table})` per table. -/
def analyzeSqlite (cur : Cursor) : DbStructure × Option String :=
  match cur.tablesQuery with
  | Except.error e => ([], some e)
  | Except.ok rows => sqliteLoop cur rows []

/-- A MongoDB database handle: `list_collection_names()` and, per
collection, the single sampled document of `find_one()` (`none` when the
collection has no document; `some ks` is a document with key list `ks`,
possibly empty). -/
structure MongoDb where
  collectionNames : List String
  findOne : String → Option (List String)

/-- MongoDB branch: sample one document per collection; `if sample:` is
Python truthiness, so both a missing document (`None`) and an empty
document (`{}`, i.e. an empty key list) are skipped. -/
def analyzeMongo (m : MongoDb) : DbStructure :=
  m.collectionNames.foldl
    (fun acc col =>
      match m.findOne col with
      | some sample =>
        if sample.isEmpty then acc
        else pyInsert acc col { columns := none, keys := some sample }
      | none => acc)
    []

/-- A MongoDB database handle in full generality: `list_collection_names()`
and each per-collection `find_one()` may themselves raise.  `Conn.mongo`
below embeds the common special case in which every call returns — the one
the sampling claims quantify over — and `analyzeMongoR_agrees` proves the
two embeddings coincide there. -/
structure MongoDbRaising where
  collectionNamesR : Except String (List String)
  findOneR : String → Except String (Option (List String))

/-- The MongoDB `for col in collections:` loop over a handle whose
`find_one()` may raise: the first exception aborts the loop and the
partially-filled dict built so far is what the catch-all hands back. -/
def mongoLoopR (m : MongoDbRaising) :
    List String → DbStructure → DbStructure × Option String
  | [], acc => (acc, none)
  | c :: rest, acc =>
    match m.findOneR c with
    | Except.error e => (acc, some e)
    | Except.ok none => mongoLoopR m rest acc
    | Except.ok (some sample) =>
      if sample.isEmpty then mongoLoopR m rest acc
      else mongoLoopR m rest
        (pyInsert acc c { columns := none, keys := some sample })

/-- MongoDB branch over the general handle. -/
def analyzeMongoR (m : MongoDbRaising) : DbStructure × Option String :=
  match m.collectionNamesR with
  | Except.error e => ([], some e)
  | Except.ok names => mongoLoopR m names []

/-- One Firestore collection as observed through `stream()`: the key lists
of the documents the iterator yields, in order, and optionally the
exception it raises after them. -/
structure FirestoreCollection where
  colId : String
  docs : List (List String)
  streamError : Option String

/-- A Firestore client: `collections()` either raises or lists the
collections. -/
structure FirestoreClient where
  collectionsR : Except String (List FirestoreCollection)

/-- The inner `for doc in docs:` loop of the Firestore branch: it
overwrites the collection's entry once per yielded document, so the last
yielded document's keys win. -/
def fireDocsLoop (id : String) (docs : List (List String))
    (acc : DbStructure) : DbStructure :=
  docs.foldl (fun a doc => pyInsert a id { columns := none, keys := some doc })
    acc

/-- The outer `for col in collections:` loop: a collection whose stream
raises contributes the documents yielded before the exception, then the
loop aborts with the partially-filled dict. -/
def fireLoop : List FirestoreCollection → DbStructure → DbStructure × Option String
  | [], acc => (acc, none)
  | c :: rest, acc =>
    match c.streamError with
    | some e => (fireDocsLoop c.colId c.docs acc, some e)
    | none => fireLoop rest (fireDocsLoop c.colId c.docs acc)

/-- Firestore branch. -/
def analyzeFirestore (f : FirestoreClient) : DbStructure × Option String :=
  match f.collectionsR with
  | Except.error e => ([], some e)
  | Except.ok colls => fireLoop colls []

/-- A BigQuery client: the schema field names of the one-row query result,
per query string (`Except.error` is a failing query). -/
structure BigQueryClient where
  queryResult : String → Except String (List String)

/-- BigQuery branch: runs ``SELECT * FROM `{db_choice}` LIMIT 1`` (the
query interpolates the *kind label*, not a table name) and records the
result schema under the kind label. -/
def analyzeBigQuery (c : BigQueryClient) (db_choice : String) :
    DbStructure × Option String :=
  match c.queryResult ("SELECT * FROM `" ++ db_choice ++ "` LIMIT 1") with
  | Except.ok schema =>
    (pyInsert [] db_choice { columns := some schema, keys := none }, none)
  | Except.error e => ([], some e)

/-- The opaque connection object `connect_to_db` produces, tagged by what
kind of handle it is.  Using a handle through the wrong kind's branch
raises (`AttributeError`/`TypeError`), which the catch-all intercepts. -/
inductive Conn where
  | rel (cur : Cursor)
  | lite (cur : Cursor)
  | mongo (db : MongoDb)
  | mongoR (db : MongoDbRaising)
  | dynamo
  | fire (client : FirestoreClient)
  | bigquery (client : BigQueryClient)

/-- Wraps a branch result the way the `except` clause does: the partial
structure is returned and any exception becomes the surfaced
`st.error` message. -/
def analyzeWrap (db_choice : String) (r : DbStructure × Option String) :
    DbStructure × Option String :=
  (r.1, r.2.map (fun e => "Error analyzing structure for " ++ db_choice ++ ": " ++ e))

/-- `analyze_db_structure(conn, db_choice)` — returns the structure mapping
together with the surfaced error message, if any (`st.error` is a display
side effect; the Python function's return value is just the mapping).
Branch order and conditions mirror src/main.py lines 92-133; the
Amazon DynamoDB branch never touches `conn` and stores a hardcoded
placeholder under the kind label itself; an unrecognized label runs no
branch and yields the empty mapping. -/
def analyze_db_structure (conn : Conn) (db_choice : String) :
    DbStructure × Option String :=
  if db_choice = "PostgreSQL" ∨ db_choice = "MySQL" ∨
      db_choice = "Microsoft SQL Server" then
    analyzeWrap db_choice
      (match conn with
       | Conn.rel cur => analyzeRel cur
       | _ => ([], some "AttributeError"))
  else if db_choice = "SQLite" then
    analyzeWrap db_choice
      (match conn with
       | Conn.lite cur => analyzeSqlite cur
       | _ => ([], some "AttributeError"))
  else if db_choice = "MongoDB" then
    analyzeWrap db_choice
      (match conn with
       | Conn.mongo m => (analyzeMongo m, none)
       | Conn.mongoR m => analyzeMongoR m
       | _ => ([], some "AttributeError"))
  else if db_choice = "Amazon DynamoDB" then
    (pyInsert [] db_choice { columns := some ["Primary Key", "Attributes"], keys := none }, none)
  else if db_choice = "Firestore" then
    analyzeWrap db_choice
      (match conn with
       | Conn.fire c => analyzeFirestore c
       | _ => ([], some "AttributeError"))
  else if db_choice = "BigQuery" then
    analyzeWrap db_choice
      (match conn with
       | Conn.bigquery c => analyzeBigQuery c db_choice
       | _ => ([], some "AttributeError"))
  else
    ([], none)

/-!
## The Endpoint Synthesizer: `generate_fastapi_api` (src/main.py lines 141-167)

The loop body defines `get_table_data` / `get_collection_data` as nested
functions and registers them on the module-level FastAPI `app`.  Python
nested functions capture the *enclosing frame*, not per-iteration
snapshots: every registered handler reads the current values of the
function-frame variables `table`, `columns` and `keys` at call time.  The
frame is embedded as the `table`/`columns`/`keys` fields of `GenState`
(`none` = the variable was never assigned, so reading it would raise
`NameError`), and a registered route records only *which* of the two
handler bodies it runs — invoking it evaluates that body against the
final frame, exactly as calling the real handler after the synthesis loop
has completed.  Nothing in the loop can raise, so the function's
`try`/`except` is structurally inert.
-/

/-- Which of the two nested handler bodies a registered route runs. -/
inductive HandlerKind where
  | tableData
  | collectionData
  deriving DecidableEq, Repr

/-- One route registered on the shared FastAPI `app` by `@app.get(...)`. -/
structure Route where
  path : String
  handler : HandlerKind
  deriving DecidableEq, Repr

/-- The synthesis loop's state: the `endpoints` dict being built, the
routes appended to the shared `app`, and the enclosing frame's variables
that all handlers close over. -/
structure GenState where
  endpoints : List (String × String)
  routes : List Route
  table : Option String
  columns : Option (List String)
  keys : Option (List String)

/-- One iteration of `for table, metadata in db_structure.items():` —
two independent `if` statements, each updating the frame variable,
registering a route, and writing `endpoints[table]`. -/
def genStep (s : GenState) (entry : String × TableMeta) : GenState :=
  let table := entry.1
  let metadata := entry.2
  let s1 := { s with table := some table }
  let s2 :=
    match metadata.columns with
    | some cols =>
      { s1 with
        columns := some cols,
        routes := s1.routes ++ [⟨"/" ++ table ++ "/{id}", HandlerKind.tableData⟩],
        endpoints := pyInsert s1.endpoints table ("/" ++ table ++ "/{id}") }
    | none => s1
  match metadata.keys with
  | some ks =>
    { s2 with
      keys := some ks,
      routes := s2.routes ++ [⟨"/" ++ table, HandlerKind.collectionData⟩],
      endpoints := pyInsert s2.endpoints table ("/" ++ table) }
  | none => s2

/-- `generate_fastapi_api(db_structure)` — the returned `endpoints` dict is
`(generate_fastapi_api db).endpoints`; the rest of the state records the
routes added to the shared `app` and the final frame the handlers see. -/
def generate_fastapi_api (db : DbStructure) : GenState :=
  db.foldl genStep ⟨[], [], none, none, none⟩

/-- A handler's JSON response. -/
inductive Response where
  | tableData (table : String) (columns : List String) (data : String)
  | collectionData (collection : String) (keys : List String)
  deriving DecidableEq, Repr

/-- The `get_table_data(id)` body, evaluated against the frame `s`:
`{"table": table, "columns": columns, "data": f"SELECT * FROM {table} WHERE id = {id}"}`.
`none` models the `NameError` of reading a never-assigned frame variable. -/
def get_table_data (s : GenState) (id : String) : Option Response :=
  match s.table, s.columns with
  | some t, some cols =>
    some (Response.tableData t cols ("SELECT * FROM " ++ t ++ " WHERE id = " ++ id))
  | _, _ => none

/-- The `get_collection_data()` body, evaluated against the frame `s`:
`{"collection": table, "keys": keys}`. -/
def get_collection_data (s : GenState) : Option Response :=
  match s.table, s.keys with
  | some t, some ks => some (Response.collectionData t ks)
  | _, _ => none

/-- Invoking a registered route after `generate_fastapi_api` has returned:
the handler body runs against the final frame `s`. -/
def invoke (s : GenState) (r : Route) (id : String) : Option Response :=
  match r.handler with
  | HandlerKind.tableData => get_table_data s id
  | HandlerKind.collectionData => get_collection_data s

/-- The routes one loop iteration appends to the shared `app`. -/
def entryRoutes (p : String × TableMeta) : List Route :=
  (match p.2.columns with
   | some _ => [⟨"/" ++ p.1 ++ "/{id}", HandlerKind.tableData⟩]
   | none => []) ++
  (match p.2.keys with
   | some _ => [⟨"/" ++ p.1, HandlerKind.collectionData⟩]
   | none => [])

/-- Number of columnar entities (`"columns" in metadata`). -/
def countColumnar (db : DbStructure) : Nat :=
  (db.filter (fun p => p.2.columns.isSome)).length

/-- Number of key-based entities (`"keys" in metadata`). -/
def countKeyed (db : DbStructure) : Nat :=
  (db.filter (fun p => p.2.keys.isSome)).length

/-!
## The Connector: `connect_to_db` (src/main.py lines 46-84)

Each branch calls one third-party client constructor on the connection
fields; the environment `ConnectEnv` records, per branch, whether that
construction succeeds (with which handle) or raises (with which message),
abstracting the host, port, credential and network state the constructors
consume.  The whole `if`/`elif` chain and the final `return conn` sit
inside one `try`; when no branch matches (the inert `"None"` default or
any unrecognized label), `conn` was never assigned and `return conn`
raises `UnboundLocalError`, which the same `except` catches.
-/

/-- Outcome of each branch's client construction for the given connection
fields. -/
structure ConnectEnv (H : Type) where
  postgresConnect : Except String H
  mysqlConnect : Except String H
  mssqlConnect : Except String H
  sqliteConnect : Except String H
  mongoConnect : Except String H
  dynamoConnect : Except String H
  firestoreConnect : Except String H
  bigqueryConnect : Except String H

/-- The body of `connect_to_db`'s `try` block: the `if`/`elif` dispatch
plus the final `return conn`. -/
def connectTryBody {H : Type} (env : ConnectEnv H) (db_choice : String) :
    Except String H :=
  if db_choice = "PostgreSQL" then env.postgresConnect
  else if db_choice = "MySQL" then env.mysqlConnect
  else if db_choice = "Microsoft SQL Server" then env.mssqlConnect
  else if db_choice = "SQLite" then env.sqliteConnect
  else if db_choice = "MongoDB" then env.mongoConnect
  else if db_choice = "Amazon DynamoDB" then env.dynamoConnect
  else if db_choice = "Firestore" then env.firestoreConnect
  else if db_choice = "BigQuery" then env.bigqueryConnect
  else Except.error "UnboundLocalError"

/-- `connect_to_db(db_choice, ...)` — first component is the returned
value (`None` on any failure), second the `st.error` message surfaced by
the `except` clause, if any. -/
def connect_to_db {H : Type} (db_choice : String) (env : ConnectEnv H) :
    Option H × Option String :=
  match connectTryBody env db_choice with
  | Except.ok conn => (some conn, none)
  | Except.error e =>
    (none, some ("Error connecting to " ++ db_choice ++ ": " ++ e))

/-- The nine database-kind labels offered by the UI drop-down. -/
def dbChoices : List String :=
  ["None", "PostgreSQL", "MySQL", "Microsoft SQL Server", "SQLite",
   "MongoDB", "Amazon DynamoDB", "Firestore", "BigQuery"]

/-!
## JSON persistence (src/main.py lines 203-209)

`json.dump(db_structure, json_file)` writes the JSON document whose tree
is `structureToJson db_structure`; `json.load` of that file parses the
text back to the same document tree (the textual layer is the standard
library's faithful rendering/parsing of this tree) and materializes it as
Python objects, embedded here by `structureFromJson`.
-/

/-- The JSON document fragment a structure mapping serializes to: its
values are only strings, arrays and objects. -/
inductive Json where
  | str (s : String)
  | arr (elems : List Json)
  | obj (fields : List (String × Json))

/-- Serialize one metadata dict (fields in dict insertion order). -/
def metaToJson (m : TableMeta) : Json :=
  Json.obj
    ((match m.columns with
      | some cols => [("columns", Json.arr (cols.map Json.str))]
      | none => []) ++
     (match m.keys with
      | some ks => [("keys", Json.arr (ks.map Json.str))]
      | none => []))

/-- Serialize the structure mapping (what `json.dump` writes). -/
def structureToJson (s : DbStructure) : Json :=
  Json.obj (s.map (fun p => (p.1, metaToJson p.2)))

/-- Parse a JSON array of strings back to its string list. -/
def decodeStringList : List Json → Option (List String)
  | [] => some []
  | Json.str s :: rest => (decodeStringList rest).map (fun l => s :: l)
  | _ => none

/-- Parse one metadata object back to a `TableMeta`. -/
def jsonToMeta : Json → Option TableMeta
  | Json.obj [] => some { columns := none, keys := none }
  | Json.obj [("columns", Json.arr xs)] =>
    (decodeStringList xs).map (fun cols => { columns := some cols, keys := none })
  | Json.obj [("keys", Json.arr xs)] =>
    (decodeStringList xs).map (fun ks => { columns := none, keys := some ks })
  | Json.obj [("columns", Json.arr xs), ("keys", Json.arr ys)] =>
    match decodeStringList xs, decodeStringList ys with
    | some cols, some ks => some { columns := some cols, keys := some ks }
    | _, _ => none
  | _ => none

/-- Parse the entries of the top-level object back to a structure mapping. -/
def decodeEntries : List (String × Json) → Option DbStructure
  | [] => some []
  | (k, v) :: rest =>
    match jsonToMeta v, decodeEntries rest with
    | some m, some r => some ((k, m) :: r)
    | _, _ => none

/-- What `json.load` of the persisted file materializes, read back as a
structure mapping. -/
def structureFromJson : Json → Option DbStructure
  | Json.obj fields => decodeEntries fields
  | _ => none

/-!
## The "Analyze DB Details" button handler (src/main.py lines 196-209)

`if conn:` — the connector's `None` sentinel is falsy, a successful handle
truthy — guards the whole analyze/display/persist sequence.  The handler
never calls `generate_fastapi_api`, so it adds no routes to the app.
-/

/-- Observable outcome of one button press: the structure displayed by
`st.write` (if any), the content written to `db_structure.json` (if the
write happened), whether the `st.success` message was shown, and the
routes the handler added to the shared app. -/
structure UIResult where
  shownStructure : Option DbStructure
  writtenFile : Option DbStructure
  successMessage : Bool
  addedRoutes : List Route
  deriving Repr

/-- The button handler: connect, and only on a truthy handle analyze,
display, and attempt the file write (`writeOk` = the `open`/`json.dump`
calls do not raise). -/
def analyzeButtonHandler (db_choice : String) (env : ConnectEnv Conn)
    (writeOk : Bool) : UIResult :=
  match (connect_to_db db_choice env).1 with
  | none => ⟨none, none, false, []⟩
  | some conn =>
    let st := analyze_db_structure conn db_choice
    ⟨some st.1, if writeOk then some st.1 else none, writeOk, []⟩

/-!
## Lemmas about the synthesis loop
-/

theorem genStep_routes (s : GenState) (p : String × TableMeta) :
    (genStep s p).routes = s.routes ++ entryRoutes p := by
  rcases hc : p.2.columns with _ | cols <;> rcases hk : p.2.keys with _ | ks <;>
    simp [genStep, entryRoutes, hc, hk]

theorem genStep_table (s : GenState) (p : String × TableMeta) :
    (genStep s p).table = some p.1 := by
  rcases hc : p.2.columns with _ | cols <;> rcases hk : p.2.keys with _ | ks <;>
    simp [genStep, hc, hk]

theorem genStep_columns (s : GenState) (p : String × TableMeta) :
    (genStep s p).columns =
      match p.2.columns with
      | some cols => some cols
      | none => s.columns := by
  rcases hc : p.2.columns with _ | cols <;> rcases hk : p.2.keys with _ | ks <;>
    simp [genStep, hc, hk]

theorem genStep_keys (s : GenState) (p : String × TableMeta) :
    (genStep s p).keys =
      match p.2.keys with
      | some ks => some ks
      | none => s.keys := by
  rcases hc : p.2.columns with _ | cols <;> rcases hk : p.2.keys with _ | ks <;>
    simp [genStep, hc, hk]

/-- The one `endpoints[table]` write that survives an iteration: the keys
branch runs second and overwrites the columns branch's write. -/
def entryEndpoint (p : String × TableMeta) : Option String :=
  match p.2.keys with
  | some _ => some ("/" ++ p.1)
  | none =>
    match p.2.columns with
    | some _ => some ("/" ++ p.1 ++ "/{id}")
    | none => none

/-- The net effect of one iteration on the `endpoints` dict: at most one
surviving write under the entity's name. -/
def endpointsStep (d : List (String × String)) (p : String × TableMeta) :
    List (String × String) :=
  match entryEndpoint p with
  | some v => pyInsert d p.1 v
  | none => d

theorem genStep_endpoints (s : GenState) (p : String × TableMeta) :
    (genStep s p).endpoints = endpointsStep s.endpoints p := by
  rcases hc : p.2.columns with _ | cols <;> rcases hk : p.2.keys with _ | ks <;>
    simp [genStep, entryEndpoint, endpointsStep, hc, hk, pyInsert_pyInsert_same]

theorem foldl_genStep_routes (db : DbStructure) :
    ∀ s : GenState, (db.foldl genStep s).routes = s.routes ++ db.flatMap entryRoutes := by
  induction db with
  | nil => intro s; simp
  | cons p rest ih =>
    intro s
    simp only [List.foldl_cons, List.flatMap_cons]
    rw [ih (genStep s p), genStep_routes, List.append_assoc]

theorem foldl_genStep_table (db : DbStructure) :
    ∀ s : GenState, (db.foldl genStep s).table =
      match db.getLast? with
      | some p => some p.1
      | none => s.table := by
  induction db with
  | nil => intro s; simp
  | cons p rest ih =>
    intro s
    rw [List.foldl_cons, ih (genStep s p)]
    cases rest with
    | nil => simp [genStep_table]
    | cons q rest' =>
      rw [List.getLast?_cons_cons]
      cases hl : (q :: rest').getLast? with
      | none => simp at hl
      | some x => simp

theorem foldl_genStep_columns (db : DbStructure) :
    ∀ s : GenState, (db.foldl genStep s).columns =
      db.foldl (fun o p =>
        match p.2.columns with
        | some cols => some cols
        | none => o) s.columns := by
  induction db with
  | nil => intro s; rfl
  | cons p rest ih =>
    intro s
    simp only [List.foldl_cons]
    rw [ih (genStep s p), genStep_columns]

theorem foldl_genStep_keys (db : DbStructure) :
    ∀ s : GenState, (db.foldl genStep s).keys =
      db.foldl (fun o p =>
        match p.2.keys with
        | some ks => some ks
        | none => o) s.keys := by
  induction db with
  | nil => intro s; rfl
  | cons p rest ih =>
    intro s
    simp only [List.foldl_cons]
    rw [ih (genStep s p), genStep_keys]

theorem foldl_genStep_endpoints (db : DbStructure) :
    ∀ s : GenState, (db.foldl genStep s).endpoints =
      db.foldl endpointsStep s.endpoints := by
  induction db with
  | nil => intro s; rfl
  | cons p rest ih =>
    intro s
    simp only [List.foldl_cons]
    rw [ih (genStep s p), genStep_endpoints]

/-!
## Generic lemmas about loops that write a dict key derived from each item
-/

theorem pyLookup_keyFold {α β : Type}
    (step : List (String × α) → β → List (String × α))
    (f : β → String) (g : String → α) (c : String → Bool)
    (hstep : ∀ d x, step d x =
      if c (f x) = true then pyInsert d (f x) (g (f x)) else d) :
    ∀ (l : List β) (acc : List (String × α)) (k : String),
      pyLookup (l.foldl step acc) k =
        if k ∈ l.map f ∧ c k = true then some (g k) else pyLookup acc k := by
  intro l
  induction l with
  | nil => intro acc k; simp
  | cons x rest ih =>
    intro acc k
    rw [List.foldl_cons, ih (step acc x) k]
    by_cases hmem : k ∈ rest.map f ∧ c k = true
    · simp [hmem, List.mem_cons, hmem.1, hmem.2]
    · rw [if_neg hmem]
      by_cases hx : k = f x ∧ c k = true
      · have hcfx : c (f x) = true := hx.1 ▸ hx.2
        obtain ⟨hk1, hck⟩ := hx
        subst hk1
        rw [hstep, if_pos hcfx, pyLookup_pyInsert_self]
        have hkmem : f x ∈ (x :: rest).map f := by simp
        rw [if_pos ⟨hkmem, hck⟩]
      · have hne : ¬(k ∈ (x :: rest).map f ∧ c k = true) := by
          rintro ⟨hk, hc⟩
          simp only [List.map_cons, List.mem_cons] at hk
          rcases hk with hk | hk
          · exact hx ⟨hk, hc⟩
          · exact hmem ⟨hk, hc⟩
        rw [if_neg hne, hstep]
        by_cases hcfx : c (f x) = true
        · rw [if_pos hcfx]
          have hkne : k ≠ f x := by
            intro hkx
            exact hx ⟨hkx, hkx ▸ hcfx⟩
          exact pyLookup_pyInsert_ne acc (f x) k (g (f x)) hkne
        · rw [if_neg hcfx]

theorem mem_map_fst_keyFold {α β : Type}
    (step : List (String × α) → β → List (String × α))
    (f : β → String) (g : String → α) (c : String → Bool)
    (hstep : ∀ d x, step d x =
      if c (f x) = true then pyInsert d (f x) (g (f x)) else d) :
    ∀ (l : List β) (acc : List (String × α)) (k : String),
      k ∈ (l.foldl step acc).map Prod.fst ↔
        k ∈ acc.map Prod.fst ∨ (k ∈ l.map f ∧ c k = true) := by
  intro l
  induction l with
  | nil => intro acc k; simp
  | cons x rest ih =>
    intro acc k
    rw [List.foldl_cons, ih (step acc x) k, hstep]
    by_cases hcfx : c (f x) = true
    · rw [if_pos hcfx, mem_map_fst_pyInsert]
      constructor
      · rintro ((h | rfl) | h)
        · exact Or.inl h
        · exact Or.inr ⟨by simp, hcfx⟩
        · exact Or.inr ⟨by simp [h.1], h.2⟩
      · rintro (h | ⟨hk, hc⟩)
        · exact Or.inl (Or.inl h)
        · simp only [List.map_cons, List.mem_cons] at hk
          rcases hk with rfl | hk
          · exact Or.inl (Or.inr rfl)
          · exact Or.inr ⟨hk, hc⟩
    · rw [if_neg hcfx]
      constructor
      · rintro (h | h)
        · exact Or.inl h
        · exact Or.inr ⟨by simp [h.1], h.2⟩
      · rintro (h | ⟨hk, hc⟩)
        · exact Or.inl h
        · simp only [List.map_cons, List.mem_cons] at hk
          rcases hk with rfl | hk
          · exact absurd hc hcfx
          · exact Or.inr ⟨hk, hc⟩

theorem find?_eq_none_of_forall {β : Type} (l : List β) (p : β → Bool)
    (h : ∀ x ∈ l, p x = false) : l.find? p = none := by
  induction l with
  | nil => rfl
  | cons x rest ih =>
    rw [List.find?_cons, h x (by simp)]
    exact ih (fun y hy => h y (by simp [hy]))

theorem pyLookup_optFold {α β : Type}
    (step : List (String × α) → β → List (String × α))
    (f : β → String) (g : β → Option α)
    (hsome : ∀ d x v, g x = some v → step d x = pyInsert d (f x) v)
    (hnone : ∀ d x, g x = none → step d x = d) :
    ∀ (l : List β) (acc : List (String × α)) (k : String), (l.map f).Nodup →
      pyLookup (l.foldl step acc) k =
        match l.find? (fun x => f x == k) with
        | some x =>
          match g x with
          | some v => some v
          | none => pyLookup acc k
        | none => pyLookup acc k := by
  intro l
  induction l with
  | nil => intro acc k _; simp
  | cons x rest ih =>
    intro acc k hnod
    simp only [List.map_cons, List.nodup_cons] at hnod
    rw [List.foldl_cons, ih (step acc x) k hnod.2, List.find?_cons]
    by_cases hx : f x = k
    · have hfind : rest.find? (fun y => f y == k) = none := by
        apply find?_eq_none_of_forall
        intro y hy
        have : f y ≠ k := by
          intro hyk
          exact hnod.1 (hx ▸ hyk ▸ List.mem_map.mpr ⟨y, hy, rfl⟩)
        simp [this]
      rw [hfind]
      simp only [hx, beq_self_eq_true, if_true]
      cases hg : g x with
      | some v => rw [hsome acc x v hg, hx, pyLookup_pyInsert_self]
      | none => rw [hnone acc x hg]
    · have : (f x == k) = false := by simp [hx]
      rw [this]
      simp only [Bool.false_eq_true, if_false]
      have hacc : pyLookup (step acc x) k = pyLookup acc k := by
        cases hg : g x with
        | some v =>
          rw [hsome acc x v hg]
          exact pyLookup_pyInsert_ne acc (f x) k v (fun h => hx h.symm)
        | none => rw [hnone acc x hg]
      cases hfind : rest.find? (fun y => f y == k) with
      | some y =>
        cases hg : g y with
        | some v => simp [hg]
        | none => simpa [hg] using hacc
      | none => simpa using hacc

theorem map_fst_optFold {α β : Type}
    (step : List (String × α) → β → List (String × α))
    (f : β → String) (g : β → Option α)
    (hsome : ∀ d x v, g x = some v → step d x = pyInsert d (f x) v)
    (hnone : ∀ d x, g x = none → step d x = d) :
    ∀ (l : List β) (acc : List (String × α)), (l.map f).Nodup →
      (∀ x ∈ l, (g x).isSome → f x ∉ acc.map Prod.fst) →
      (l.foldl step acc).map Prod.fst =
        acc.map Prod.fst ++ (l.filter (fun x => (g x).isSome)).map f := by
  intro l
  induction l with
  | nil => intro acc _ _; simp
  | cons x rest ih =>
    intro acc hnod hfresh
    simp only [List.map_cons, List.nodup_cons] at hnod
    rw [List.foldl_cons, List.filter_cons]
    cases hg : g x with
    | some v =>
      have hstep' : step acc x = pyInsert acc (f x) v := hsome acc x v hg
      have hnew : (pyInsert acc (f x) v).map Prod.fst = acc.map Prod.fst ++ [f x] := by
        rw [map_fst_pyInsert, if_neg (hfresh x (by simp) (by simp [hg]))]
      rw [hstep', ih (pyInsert acc (f x) v) hnod.2 ?fresh, hnew]
      case fresh =>
        intro y hy hgy
        rw [hnew]
        simp only [List.mem_append, List.mem_singleton]
        rintro (h | h)
        · exact hfresh y (by simp [hy]) hgy h
        · exact hnod.1 (h ▸ List.mem_map.mpr ⟨y, hy, rfl⟩)
      simp [hg]
    | none =>
      have hstep' : step acc x = acc := hnone acc x hg
      rw [hstep', ih acc hnod.2 (fun y hy hgy => hfresh y (by simp [hy]) hgy)]
      simp [hg]

/-!
## Lemmas about the relational introspection loop
-/

/-- A catalog row processes without an exception: it has a first field and
its table's column query succeeds with rows that all have a first field. -/
def rowOk (cur : Cursor) (row : List String) : Bool :=
  match row[0]? with
  | none => false
  | some name =>
    match cur.columnsQuery name with
    | Except.ok colRows => (firstFields colRows).isSome
    | Except.error _ => false

/-- The entry the loop stores for a table name (junk outside `rowOk`). -/
def rowMeta (cur : Cursor) (name : String) : TableMeta :=
  { columns := some
      (match cur.columnsQuery name with
       | Except.ok colRows => (firstFields colRows).getD []
       | Except.error _ => []),
    keys := none }

theorem headI_of_get?_zero {a : String} {row : List String}
    (h : row[0]? = some a) : row.headI = a := by
  cases row with
  | nil => simp at h
  | cons x rest => simpa using h

theorem get?_zero_of_ne_nil {row : List String} (h : row ≠ []) :
    row[0]? = some row.headI := by
  cases row with
  | nil => exact absurd rfl h
  | cons x rest => simp

theorem firstFields_of_nonempty (colRows : List (List String))
    (h : ∀ c ∈ colRows, c ≠ []) :
    firstFields colRows = some (colRows.map List.headI) := by
  induction colRows with
  | nil => rfl
  | cons c rest ih =>
    rw [firstFields, get?_zero_of_ne_nil (h c (by simp)),
      ih (fun x hx => h x (by simp [hx]))]
    rfl

theorem relLoop_fst (cur : Cursor) :
    ∀ (rows : List (List String)) (acc : DbStructure),
      (relLoop cur rows acc).1 =
        (rows.takeWhile (rowOk cur)).foldl
          (fun d row => pyInsert d row.headI (rowMeta cur row.headI)) acc := by
  intro rows
  induction rows with
  | nil => intro acc; rfl
  | cons row rest ih =>
    intro acc
    cases hg : row[0]? with
    | none =>
      have hok : rowOk cur row = false := by simp [rowOk, hg]
      simp [relLoop, hg, List.takeWhile_cons, hok]
    | some name =>
      have hhead : row.headI = name := headI_of_get?_zero hg
      cases hq : cur.columnsQuery name with
      | error e =>
        have hok : rowOk cur row = false := by simp [rowOk, hg, hq]
        simp [relLoop, hg, hq, List.takeWhile_cons, hok]
      | ok colRows =>
        cases hf : firstFields colRows with
        | none =>
          have hok : rowOk cur row = false := by simp [rowOk, hg, hq, hf]
          simp [relLoop, hg, hq, hf, List.takeWhile_cons, hok]
        | some cols =>
          have hok : rowOk cur row = true := by simp [rowOk, hg, hq, hf]
          have hmeta : rowMeta cur name = { columns := some cols, keys := none } := by
            simp [rowMeta, hq, hf]
          have hun : relLoop cur (row :: rest) acc
              = relLoop cur rest (pyInsert acc name { columns := some cols, keys := none }) := by
            simp [relLoop, hg, hq, hf]
          rw [List.takeWhile_cons]
          simp only [hok, if_true, List.foldl_cons, hhead, hmeta, hun]
          exact ih _

theorem relLoop_snd_eq_none (cur : Cursor) :
    ∀ (rows : List (List String)) (acc : DbStructure),
      ((relLoop cur rows acc).2 = none ↔ rows.all (rowOk cur) = true) := by
  intro rows
  induction rows with
  | nil => intro acc; simp [relLoop]
  | cons row rest ih =>
    intro acc
    rw [List.all_cons]
    cases hg : row[0]? with
    | none =>
      have hok : rowOk cur row = false := by simp [rowOk, hg]
      simp [relLoop, hg, hok]
    | some name =>
      cases hq : cur.columnsQuery name with
      | error e =>
        have hok : rowOk cur row = false := by simp [rowOk, hg, hq]
        simp [relLoop, hg, hq, hok]
      | ok colRows =>
        cases hf : firstFields colRows with
        | none =>
          have hok : rowOk cur row = false := by simp [rowOk, hg, hq, hf]
          simp [relLoop, hg, hq, hf, hok]
        | some cols =>
          have hok : rowOk cur row = true := by simp [rowOk, hg, hq, hf]
          have hun : relLoop cur (row :: rest) acc
              = relLoop cur rest (pyInsert acc name { columns := some cols, keys := none }) := by
            simp [relLoop, hg, hq, hf]
          rw [hun, hok]
          simp only [Bool.true_and]
          exact ih _

/-!
## String lemmas about the synthesized paths
-/

theorem string_append_left_cancel {a b c : String} (h : a ++ b = a ++ c) :
    b = c := by
  apply String.ext
  have hd := congrArg String.data h
  rw [String.data_append, String.data_append] at hd
  exact List.append_cancel_left hd

theorem string_append_right_cancel {a b c : String} (h : a ++ c = b ++ c) :
    a = b := by
  apply String.ext
  have hd := congrArg String.data h
  rw [String.data_append, String.data_append] at hd
  exact List.append_cancel_right hd

theorem tablePath_inj {a b : String}
    (h : "/" ++ a ++ "/{id}" = "/" ++ b ++ "/{id}") : a = b :=
  string_append_left_cancel (string_append_right_cancel h)

theorem collectionPath_inj {a b : String} (h : "/" ++ a = "/" ++ b) : a = b :=
  string_append_left_cancel h

theorem tablePath_eq_collectionPath {a b : String}
    (h : "/" ++ a ++ "/{id}" = "/" ++ b) : b = a ++ "/{id}" := by
  rw [String.append_assoc] at h
  exact (string_append_left_cancel h).symm

theorem self_ne_self_append_id (a : String) : a ≠ a ++ "/{id}" := by
  intro h
  have := congrArg String.length h
  rw [String.length_append] at this
  have h5 : ("/{id}" : String).length = 5 := rfl
  omega

theorem tablePath_ne_collectionPath_self (a : String) :
    "/" ++ a ++ "/{id}" ≠ "/" ++ a := by
  intro h
  exact self_ne_self_append_id a (tablePath_eq_collectionPath h)

/-!
## Remaining helper lemmas
-/

/-- `if sample:` truthiness of the sampled document. -/
def mongoTruthy (m : MongoDb) (c : String) : Bool :=
  match m.findOne c with
  | some sample => !sample.isEmpty
  | none => false

/-- The entry stored for a truthy collection (junk otherwise). -/
def mongoMeta (m : MongoDb) (c : String) : TableMeta :=
  { columns := none, keys := some ((m.findOne c).getD []) }

theorem analyzeMongo_step (m : MongoDb) (d : DbStructure) (c : String) :
    (match m.findOne c with
     | some sample =>
       if sample.isEmpty then d
       else pyInsert d c { columns := none, keys := some sample }
     | none => d)
    = if mongoTruthy m c = true then pyInsert d c (mongoMeta m c) else d := by
  cases hf : m.findOne c with
  | none => simp [mongoTruthy, hf]
  | some sample =>
    cases he : sample.isEmpty <;>
      simp [mongoTruthy, mongoMeta, hf, he]

theorem find?_entry_of_nodup (db : DbStructure) (e : String) (m : TableMeta)
    (hnod : (db.map Prod.fst).Nodup) (hmem : (e, m) ∈ db) :
    db.find? (fun p => p.1 == e) = some (e, m) := by
  induction db with
  | nil => simp at hmem
  | cons p rest ih =>
    simp only [List.map_cons, List.nodup_cons] at hnod
    rcases List.mem_cons.mp hmem with rfl | hmem'
    · simp [List.find?_cons]
    · have hne : p.1 ≠ e := by
        intro h
        exact hnod.1 (h ▸ List.mem_map.mpr ⟨(e, m), hmem', rfl⟩)
      have hbeq : (p.1 == e) = false := by simp [hne]
      simp only [List.find?_cons, hbeq]
      exact ih hnod.2 hmem'

theorem length_flatMap_entryRoutes (db : DbStructure) :
    (db.flatMap entryRoutes).length = countColumnar db + countKeyed db := by
  induction db with
  | nil => rfl
  | cons p rest ih =>
    rw [List.flatMap_cons, List.length_append, ih]
    unfold countColumnar countKeyed entryRoutes
    rw [List.filter_cons, List.filter_cons]
    rcases hc : p.2.columns with _ | cols <;> rcases hk : p.2.keys with _ | ks <;>
      simp [hc, hk] <;> omega

theorem count_filter_or_add_and (db : DbStructure) :
    countColumnar db + countKeyed db =
      (db.filter (fun p => p.2.columns.isSome || p.2.keys.isSome)).length +
      (db.filter (fun p => p.2.columns.isSome && p.2.keys.isSome)).length := by
  induction db with
  | nil => rfl
  | cons p rest ih =>
    unfold countColumnar countKeyed at *
    rw [List.filter_cons, List.filter_cons, List.filter_cons, List.filter_cons]
    rcases hc : p.2.columns with _ | cols <;> rcases hk : p.2.keys with _ | ks <;>
      simp [hc, hk] <;> omega

theorem mem_map_path_entryRoutes (q : String × TableMeta) (s : String) :
    s ∈ (entryRoutes q).map Route.path ↔
      (q.2.columns.isSome = true ∧ s = "/" ++ q.1 ++ "/{id}") ∨
      (q.2.keys.isSome = true ∧ s = "/" ++ q.1) := by
  rcases hc : q.2.columns with _ | cols <;> rcases hk : q.2.keys with _ | ks <;>
    simp [entryRoutes, hc, hk]

theorem nodup_paths_flatMap (db : DbStructure) :
    (db.map Prod.fst).Nodup →
    (∀ p ∈ db, ∀ q ∈ db, p.2.columns.isSome = true → q.2.keys.isSome = true →
      q.1 ≠ p.1 ++ "/{id}") →
    ((db.flatMap entryRoutes).map Route.path).Nodup := by
  induction db with
  | nil => intro _ _; simp
  | cons p rest ih =>
    intro hnod hdisj
    simp only [List.map_cons, List.nodup_cons] at hnod
    rw [List.flatMap_cons, List.map_append, List.nodup_append]
    refine ⟨?_, ?_, ?_⟩
    · rcases hc : p.2.columns with _ | cols <;> rcases hk : p.2.keys with _ | ks <;>
        simp [entryRoutes, hc, hk, tablePath_ne_collectionPath_self]
    · exact ih hnod.2
        (fun a ha b hb => hdisj a (by simp [ha]) b (by simp [hb]))
    · intro s hs hs'
      rcases List.mem_map.mp hs' with ⟨r, hr, rfl⟩
      rcases List.mem_flatMap.mp hr with ⟨q, hq, hrq⟩
      have hqs : r.path ∈ (entryRoutes q).map Route.path :=
        List.mem_map.mpr ⟨r, hrq, rfl⟩
      rw [mem_map_path_entryRoutes] at hs hqs
      have hq1 : q.1 ∈ rest.map Prod.fst := List.mem_map.mpr ⟨q, hq, rfl⟩
      rcases hs with ⟨hpc, hps⟩ | ⟨hpk, hps⟩ <;>
        rcases hqs with ⟨hqc, hqss⟩ | ⟨hqk, hqss⟩
      · have : p.1 = q.1 := tablePath_inj (hps ▸ hqss)
        exact hnod.1 (this ▸ hq1)
      · have : q.1 = p.1 ++ "/{id}" := tablePath_eq_collectionPath (hps ▸ hqss)
        exact hdisj p (by simp) q (by simp [hq]) hpc hqk this
      · have : p.1 = q.1 ++ "/{id}" :=
          tablePath_eq_collectionPath (hqss.symm.trans hps)
        exact hdisj q (by simp [hq]) p (by simp) hqc hpk this
      · have : p.1 = q.1 := collectionPath_inj (hps ▸ hqss)
        exact hnod.1 (this ▸ hq1)

theorem takeWhile_eq_self_of_all {β : Type} (l : List β) (p : β → Bool)
    (h : l.all p = true) : l.takeWhile p = l := by
  induction l with
  | nil => rfl
  | cons x rest ih =>
    rw [List.all_cons, Bool.and_eq_true] at h
    simp [List.takeWhile_cons, h.1, ih h.2]

theorem analyze_rel_dispatch (cur : Cursor) (db_choice : String)
    (hrel : db_choice = "PostgreSQL" ∨ db_choice = "MySQL" ∨
      db_choice = "Microsoft SQL Server") :
    analyze_db_structure (Conn.rel cur) db_choice
      = analyzeWrap db_choice (analyzeRel cur) := by
  rcases hrel with rfl | rfl | rfl <;> rfl

/-!
## The claims
-/

/-- C5: for the Amazon DynamoDB kind, `analyze_db_structure` returns the
same hardcoded single-entry placeholder — the kind label mapped to
`{"columns": ["Primary Key", "Attributes"]}` — for every connection and
every database content, introspecting nothing. -/
theorem dynamodb_placeholder (conn : Conn) :
    analyze_db_structure conn "Amazon DynamoDB" =
      ([("Amazon DynamoDB",
         { columns := some ["Primary Key", "Attributes"], keys := none })],
       none) := by
  rfl

theorem dynamodb_placeholder_witness :
    analyze_db_structure (Conn.mongo ⟨["orders"], fun _ => none⟩)
        "Amazon DynamoDB" =
      ([("Amazon DynamoDB",
         { columns := some ["Primary Key", "Attributes"], keys := none })],
       none) :=
  dynamodb_placeholder (Conn.mongo ⟨["orders"], fun _ => none⟩)

/-- C4: for the MongoDB kind, a collection whose `find_one()` sample is
`None` produces no entry; exactly the collections with a non-empty sampled
document appear, each mapped to `{"keys": <sample's key list>}`; no error
is surfaced. -/
theorem mongo_structure_skips_sampleless (m : MongoDb) :
    ((analyze_db_structure (Conn.mongo m) "MongoDB").2 = none) ∧
    (∀ c, m.findOne c = none →
      pyLookup (analyze_db_structure (Conn.mongo m) "MongoDB").1 c = none) ∧
    (∀ c, c ∈ (analyze_db_structure (Conn.mongo m) "MongoDB").1.map Prod.fst ↔
      c ∈ m.collectionNames ∧ ∃ ks, m.findOne c = some ks ∧ ks ≠ []) ∧
    (∀ c ks, c ∈ m.collectionNames → m.findOne c = some ks → ks ≠ [] →
      pyLookup (analyze_db_structure (Conn.mongo m) "MongoDB").1 c =
        some { columns := none, keys := some ks }) := by
  have hst : analyze_db_structure (Conn.mongo m) "MongoDB"
      = (analyzeMongo m, none) := rfl
  have htruthy : ∀ c, mongoTruthy m c = true ↔
      ∃ ks, m.findOne c = some ks ∧ ks ≠ [] := by
    intro c
    cases hf : m.findOne c with
    | none => simp [mongoTruthy, hf]
    | some sample =>
      cases he : sample.isEmpty with
      | true =>
        have : sample = [] := List.isEmpty_iff.mp he
        simp [mongoTruthy, hf, he, this]
      | false =>
        have : sample ≠ [] := by
          intro h
          rw [h] at he
          simp at he
        simp [mongoTruthy, hf, he, this]
  have hlook : ∀ k, pyLookup (analyzeMongo m) k =
      if k ∈ m.collectionNames ∧ mongoTruthy m k = true
      then some (mongoMeta m k) else none := by
    intro k
    have := pyLookup_keyFold
      (fun acc col =>
        match m.findOne col with
        | some sample =>
          if sample.isEmpty then acc
          else pyInsert acc col { columns := none, keys := some sample }
        | none => acc)
      (fun c => c) (mongoMeta m) (mongoTruthy m)
      (fun d x => analyzeMongo_step m d x)
      m.collectionNames [] k
    rw [analyzeMongo, this]
    simp [pyLookup]
  have hmem : ∀ k, k ∈ (analyzeMongo m).map Prod.fst ↔
      k ∈ m.collectionNames ∧ mongoTruthy m k = true := by
    intro k
    have := mem_map_fst_keyFold
      (fun acc col =>
        match m.findOne col with
        | some sample =>
          if sample.isEmpty then acc
          else pyInsert acc col { columns := none, keys := some sample }
        | none => acc)
      (fun c => c) (mongoMeta m) (mongoTruthy m)
      (fun d x => analyzeMongo_step m d x)
      m.collectionNames [] k
    rw [analyzeMongo, this]
    simp
  rw [hst]
  refine ⟨rfl, ?_, ?_, ?_⟩
  · intro c hnone
    rw [hlook c]
    have : mongoTruthy m c = false := by simp [mongoTruthy, hnone]
    simp [this]
  · intro c
    rw [hmem c]
    constructor
    · rintro ⟨hc, ht⟩
      exact ⟨hc, (htruthy c).mp ht⟩
    · rintro ⟨hc, hks⟩
      exact ⟨hc, (htruthy c).mpr hks⟩
  · intro c ks hc hf hne
    rw [hlook c]
    have ht : mongoTruthy m c = true := (htruthy c).mpr ⟨ks, hf, hne⟩
    have hmeta : mongoMeta m c = { columns := none, keys := some ks } := by
      simp [mongoMeta, hf]
    simp [hc, ht, hmeta]

theorem mongo_structure_skips_sampleless_witness :
    pyLookup (analyze_db_structure
      (Conn.mongo ⟨["empty", "users"],
        fun c => if c = "users" then some ["_id", "name"] else none⟩)
      "MongoDB").1 "empty" = none ∧
    pyLookup (analyze_db_structure
      (Conn.mongo ⟨["empty", "users"],
        fun c => if c = "users" then some ["_id", "name"] else none⟩)
      "MongoDB").1 "users" =
      some { columns := none, keys := some ["_id", "name"] } :=
  ⟨(mongo_structure_skips_sampleless _).2.1 "empty" rfl,
   (mongo_structure_skips_sampleless _).2.2.2 "users" ["_id", "name"]
     (by simp) rfl (by simp)⟩

/-- C2: for each relational kind (PostgreSQL, MySQL, Microsoft SQL Server),
when the catalog queries return normally, the structure mapping's key set
is exactly the set of table names the catalog query returned, each entry's
column list is, element for element and in order, the first field of each
row of that table's column query, and no error is surfaced. -/
theorem relational_structure_matches_catalog (db_choice : String)
    (hrel : db_choice = "PostgreSQL" ∨ db_choice = "MySQL" ∨
      db_choice = "Microsoft SQL Server")
    (cur : Cursor) (rows : List (List String))
    (hq : cur.tablesQuery = Except.ok rows)
    (hrows : ∀ r ∈ rows, r ≠ [])
    (hcols : ∀ r ∈ rows, ∃ crows,
      cur.columnsQuery r.headI = Except.ok crows ∧ ∀ c ∈ crows, c ≠ []) :
    (analyze_db_structure (Conn.rel cur) db_choice).2 = none ∧
    ((analyze_db_structure (Conn.rel cur) db_choice).1.map Prod.fst).toFinset
      = (rows.map List.headI).toFinset ∧
    ∀ r ∈ rows, ∃ crows, cur.columnsQuery r.headI = Except.ok crows ∧
      pyLookup (analyze_db_structure (Conn.rel cur) db_choice).1 r.headI =
        some { columns := some (crows.map List.headI), keys := none } := by
  have hallok : rows.all (rowOk cur) = true := by
    rw [List.all_eq_true]
    intro r hr
    obtain ⟨crows, hcq, hcne⟩ := hcols r hr
    simp [rowOk, get?_zero_of_ne_nil (hrows r hr), hcq,
      firstFields_of_nonempty crows hcne]
  have htw : rows.takeWhile (rowOk cur) = rows :=
    takeWhile_eq_self_of_all rows (rowOk cur) hallok
  have hd := analyze_rel_dispatch cur db_choice hrel
  have hrl : analyzeRel cur = relLoop cur rows [] := by
    rw [analyzeRel, hq]
  have hfst : (analyze_db_structure (Conn.rel cur) db_choice).1 =
      rows.foldl (fun d row => pyInsert d row.headI (rowMeta cur row.headI)) [] := by
    rw [hd, analyzeWrap, hrl, relLoop_fst, htw]
  have hstep : ∀ (d : DbStructure) (row : List String),
      (fun d row => pyInsert d row.headI (rowMeta cur row.headI)) d row =
      if (fun _ : String => true) row.headI = true
      then pyInsert d row.headI (rowMeta cur row.headI) else d := by
    intro d row
    simp
  refine ⟨?_, ?_, ?_⟩
  · rw [hd, analyzeWrap, hrl]
    simp [(relLoop_snd_eq_none cur rows []).mpr hallok]
  · rw [hfst]
    ext a
    simp only [List.mem_toFinset]
    rw [mem_map_fst_keyFold _ List.headI (rowMeta cur) (fun _ => true)
      hstep rows [] a]
    simp
  · intro r hr
    obtain ⟨crows, hcq, hcne⟩ := hcols r hr
    refine ⟨crows, hcq, ?_⟩
    rw [hfst]
    rw [pyLookup_keyFold _ List.headI (rowMeta cur) (fun _ => true)
      hstep rows [] r.headI]
    have hmem : r.headI ∈ rows.map List.headI := List.mem_map.mpr ⟨r, hr, rfl⟩
    have hmeta : rowMeta cur r.headI =
        { columns := some (crows.map List.headI), keys := none } := by
      simp [rowMeta, hcq, firstFields_of_nonempty crows hcne]
    simp [hmem, hmeta]

theorem relational_structure_matches_catalog_witness :
    ((analyze_db_structure
      (Conn.rel ⟨Except.ok [["users"]],
        fun n => if n = "users" then Except.ok [["id"], ["name"]]
          else Except.error "no such table"⟩)
      "PostgreSQL").2 = none) ∧
    pyLookup (analyze_db_structure
      (Conn.rel ⟨Except.ok [["users"]],
        fun n => if n = "users" then Except.ok [["id"], ["name"]]
          else Except.error "no such table"⟩)
      "PostgreSQL").1 "users" =
      some { columns := some ["id", "name"], keys := none } := by
  have h := relational_structure_matches_catalog "PostgreSQL" (Or.inl rfl)
    ⟨Except.ok [["users"]],
      fun n => if n = "users" then Except.ok [["id"], ["name"]]
        else Except.error "no such table"⟩
    [["users"]] rfl (by simp)
    (by
      intro r hr
      simp only [List.mem_singleton] at hr
      subst hr
      exact ⟨[["id"], ["name"]], by simp, by simp⟩)
  refine ⟨h.1, ?_⟩
  obtain ⟨crows, hcq, hlook⟩ := h.2.2 ["users"] (by simp)
  have : crows = [["id"], ["name"]] := by
    have h' := hcq
    simp only [if_pos rfl] at h'
    exact (Except.ok.injEq _ _).mp h'.symm
  subst this
  simpa using hlook

/-!
## Per-kind loop characterizations for the failure-policy claim
-/

/-- A `sqlite_master` row processes without an exception: it has a first
field and its table's `PRAGMA table_info` succeeds with rows that all
have a second field. -/
def sqliteRowOk (cur : Cursor) (row : List String) : Bool :=
  match row[0]? with
  | none => false
  | some name =>
    match cur.columnsQuery name with
    | Except.ok colRows => (secondFields colRows).isSome
    | Except.error _ => false

/-- The entry the SQLite loop stores for a table name (junk outside
`sqliteRowOk`). -/
def sqliteRowMeta (cur : Cursor) (name : String) : TableMeta :=
  { columns := some
      (match cur.columnsQuery name with
       | Except.ok colRows => (secondFields colRows).getD []
       | Except.error _ => []),
    keys := none }

theorem sqliteLoop_fst (cur : Cursor) :
    ∀ (rows : List (List String)) (acc : DbStructure),
      (sqliteLoop cur rows acc).1 =
        (rows.takeWhile (sqliteRowOk cur)).foldl
          (fun d row => pyInsert d row.headI (sqliteRowMeta cur row.headI)) acc := by
  intro rows
  induction rows with
  | nil => intro acc; rfl
  | cons row rest ih =>
    intro acc
    cases hg : row[0]? with
    | none =>
      have hok : sqliteRowOk cur row = false := by simp [sqliteRowOk, hg]
      simp [sqliteLoop, hg, List.takeWhile_cons, hok]
    | some name =>
      have hhead : row.headI = name := headI_of_get?_zero hg
      cases hq : cur.columnsQuery name with
      | error e =>
        have hok : sqliteRowOk cur row = false := by simp [sqliteRowOk, hg, hq]
        simp [sqliteLoop, hg, hq, List.takeWhile_cons, hok]
      | ok colRows =>
        cases hf : secondFields colRows with
        | none =>
          have hok : sqliteRowOk cur row = false := by
            simp [sqliteRowOk, hg, hq, hf]
          simp [sqliteLoop, hg, hq, hf, List.takeWhile_cons, hok]
        | some cols =>
          have hok : sqliteRowOk cur row = true := by
            simp [sqliteRowOk, hg, hq, hf]
          have hmeta : sqliteRowMeta cur name
              = { columns := some cols, keys := none } := by
            simp [sqliteRowMeta, hq, hf]
          have hun : sqliteLoop cur (row :: rest) acc
              = sqliteLoop cur rest
                  (pyInsert acc name { columns := some cols, keys := none }) := by
            simp [sqliteLoop, hg, hq, hf]
          rw [List.takeWhile_cons]
          simp only [hok, if_true, List.foldl_cons, hhead, hmeta, hun]
          exact ih _

theorem sqliteLoop_snd_eq_none (cur : Cursor) :
    ∀ (rows : List (List String)) (acc : DbStructure),
      ((sqliteLoop cur rows acc).2 = none ↔
        rows.all (sqliteRowOk cur) = true) := by
  intro rows
  induction rows with
  | nil => intro acc; simp [sqliteLoop]
  | cons row rest ih =>
    intro acc
    rw [List.all_cons]
    cases hg : row[0]? with
    | none =>
      have hok : sqliteRowOk cur row = false := by simp [sqliteRowOk, hg]
      simp [sqliteLoop, hg, hok]
    | some name =>
      cases hq : cur.columnsQuery name with
      | error e =>
        have hok : sqliteRowOk cur row = false := by simp [sqliteRowOk, hg, hq]
        simp [sqliteLoop, hg, hq, hok]
      | ok colRows =>
        cases hf : secondFields colRows with
        | none =>
          have hok : sqliteRowOk cur row = false := by
            simp [sqliteRowOk, hg, hq, hf]
          simp [sqliteLoop, hg, hq, hf, hok]
        | some cols =>
          have hok : sqliteRowOk cur row = true := by
            simp [sqliteRowOk, hg, hq, hf]
          have hun : sqliteLoop cur (row :: rest) acc
              = sqliteLoop cur rest
                  (pyInsert acc name { columns := some cols, keys := none }) := by
            simp [sqliteLoop, hg, hq, hf]
          rw [hun, hok]
          simp only [Bool.true_and]
          exact ih _

/-- A collection's `find_one()` call returns (does not raise). -/
def colOk (m : MongoDbRaising) (c : String) : Bool :=
  match m.findOneR c with
  | Except.ok _ => true
  | Except.error _ => false

/-- One iteration of the MongoDB loop on a collection whose `find_one()`
returns. -/
def mongoOkStep (m : MongoDbRaising) (acc : DbStructure) (c : String) :
    DbStructure :=
  match m.findOneR c with
  | Except.ok (some sample) =>
    if sample.isEmpty then acc
    else pyInsert acc c { columns := none, keys := some sample }
  | _ => acc

theorem mongoLoopR_fst (m : MongoDbRaising) :
    ∀ (names : List String) (acc : DbStructure),
      (mongoLoopR m names acc).1 =
        (names.takeWhile (colOk m)).foldl (mongoOkStep m) acc := by
  intro names
  induction names with
  | nil => intro acc; rfl
  | cons c rest ih =>
    intro acc
    cases hf : m.findOneR c with
    | error e =>
      have hok : colOk m c = false := by simp [colOk, hf]
      simp [mongoLoopR, hf, List.takeWhile_cons, hok]
    | ok sample =>
      have hok : colOk m c = true := by simp [colOk, hf]
      rw [List.takeWhile_cons]
      cases sample with
      | none =>
        have hstep : mongoOkStep m acc c = acc := by simp [mongoOkStep, hf]
        simp [mongoLoopR, hf, hok, hstep, ih]
      | some s =>
        cases he : s.isEmpty with
        | true =>
          have hstep : mongoOkStep m acc c = acc := by
            simp [mongoOkStep, hf, he]
          simp [mongoLoopR, hf, he, hok, hstep, ih]
        | false =>
          have hstep : mongoOkStep m acc c
              = pyInsert acc c { columns := none, keys := some s } := by
            simp [mongoOkStep, hf, he]
          simp [mongoLoopR, hf, he, hok, hstep, ih]

theorem mongoLoopR_snd_eq_none (m : MongoDbRaising) :
    ∀ (names : List String) (acc : DbStructure),
      ((mongoLoopR m names acc).2 = none ↔ names.all (colOk m) = true) := by
  intro names
  induction names with
  | nil => intro acc; simp [mongoLoopR]
  | cons c rest ih =>
    intro acc
    rw [List.all_cons]
    cases hf : m.findOneR c with
    | error e =>
      have hok : colOk m c = false := by simp [colOk, hf]
      simp [mongoLoopR, hf, hok]
    | ok sample =>
      have hok : colOk m c = true := by simp [colOk, hf]
      cases sample with
      | none => simp [mongoLoopR, hf, hok, ih]
      | some s =>
        cases he : s.isEmpty <;> simp [mongoLoopR, hf, hok, he, ih]

/-- On a handle none of whose calls raise, the general MongoDB embedding
agrees with the never-raising one the sampling claims quantify over. -/
theorem analyzeMongoR_agrees (m : MongoDb) :
    analyzeMongoR
      ⟨Except.ok m.collectionNames, fun c => Except.ok (m.findOne c)⟩
      = (analyzeMongo m, none) := by
  have hloop : ∀ (names : List String) (acc : DbStructure),
      mongoLoopR ⟨Except.ok m.collectionNames, fun c => Except.ok (m.findOne c)⟩
          names acc
        = (names.foldl
            (fun acc col =>
              match m.findOne col with
              | some sample =>
                if sample.isEmpty then acc
                else pyInsert acc col { columns := none, keys := some sample }
              | none => acc) acc, none) := by
    intro names
    induction names with
    | nil => intro acc; rfl
    | cons c rest ih =>
      intro acc
      cases hf : m.findOne c with
      | none => simp [mongoLoopR, hf, ih]
      | some sample =>
        cases he : sample.isEmpty with
        | true =>
          have heq : sample = [] := List.isEmpty_iff.mp he
          simp [mongoLoopR, hf, he, heq, ih]
        | false =>
          have hne : ¬ sample = [] := by
            intro h
            rw [h] at he
            simp at he
          simp [mongoLoopR, hf, he, hne, ih]
  rw [analyzeMongoR]
  exact hloop m.collectionNames []

/-- A collection's `stream()` iterator is exhausted without raising. -/
def fireOk (c : FirestoreCollection) : Bool :=
  c.streamError.isNone

theorem fireLoop_fst :
    ∀ (colls : List FirestoreCollection) (acc : DbStructure),
      (fireLoop colls acc).1 =
        (colls.takeWhile fireOk ++ (colls.dropWhile fireOk).take 1).foldl
          (fun a c => fireDocsLoop c.colId c.docs a) acc := by
  intro colls
  induction colls with
  | nil => intro acc; rfl
  | cons c rest ih =>
    intro acc
    cases hs : c.streamError with
    | some e =>
      have hok : fireOk c = false := by simp [fireOk, hs]
      simp [fireLoop, hs, List.takeWhile_cons, List.dropWhile_cons, hok]
    | none =>
      have hok : fireOk c = true := by simp [fireOk, hs]
      simp [fireLoop, hs, List.takeWhile_cons, List.dropWhile_cons, hok, ih]

theorem fireLoop_snd_eq_none :
    ∀ (colls : List FirestoreCollection) (acc : DbStructure),
      ((fireLoop colls acc).2 = none ↔ colls.all fireOk = true) := by
  intro colls
  induction colls with
  | nil => intro acc; simp [fireLoop]
  | cons c rest ih =>
    intro acc
    rw [List.all_cons]
    cases hs : c.streamError with
    | some e =>
      have hok : fireOk c = false := by simp [fireOk, hs]
      simp [fireLoop, hs, hok]
    | none =>
      have hok : fireOk c = true := by simp [fireOk, hs]
      simp [fireLoop, hs, hok, ih]

/-- C8: `analyze_db_structure` never propagates an exception, for every
database kind: each branch returns the partially-filled mapping holding
exactly the entries written before the first exception (the whole mapping
when nothing raises), with the surfaced message — not the return value —
recording the failure.  Relational and SQLite failures are a failing
catalog or column query or a too-short row; MongoDB failures are a raising
`list_collection_names()` or a mid-loop raising `find_one()`; Firestore
failures are a raising `collections()` or a mid-stream raising document
iterator; BigQuery failures are a failing query; the DynamoDB branch
cannot raise.  The caller, who receives only the mapping, cannot
distinguish an empty database from an introspection crash: an empty
relational catalog and a crash on the first catalog row both hand back
the empty dictionary. -/
theorem analyze_mid_loop_failure :
    (∀ (db_choice : String),
      db_choice = "PostgreSQL" ∨ db_choice = "MySQL" ∨
        db_choice = "Microsoft SQL Server" →
      ∀ (cur : Cursor),
      (∀ e, cur.tablesQuery = Except.error e →
        analyze_db_structure (Conn.rel cur) db_choice =
          ([], some ("Error analyzing structure for " ++ db_choice ++ ": " ++ e))) ∧
      (∀ rows, cur.tablesQuery = Except.ok rows →
        ((analyze_db_structure (Conn.rel cur) db_choice).1 =
          (rows.takeWhile (rowOk cur)).foldl
            (fun d row => pyInsert d row.headI (rowMeta cur row.headI)) []) ∧
        ((analyze_db_structure (Conn.rel cur) db_choice).2 = none ↔
          rows.all (rowOk cur) = true) ∧
        (((rows.takeWhile (rowOk cur)).map List.headI).Nodup →
          (analyze_db_structure (Conn.rel cur) db_choice).1.length =
            (rows.takeWhile (rowOk cur)).length))) ∧
    (∀ (cur : Cursor),
      (∀ e, cur.tablesQuery = Except.error e →
        analyze_db_structure (Conn.lite cur) "SQLite" =
          ([], some ("Error analyzing structure for SQLite: " ++ e))) ∧
      (∀ rows, cur.tablesQuery = Except.ok rows →
        ((analyze_db_structure (Conn.lite cur) "SQLite").1 =
          (rows.takeWhile (sqliteRowOk cur)).foldl
            (fun d row => pyInsert d row.headI (sqliteRowMeta cur row.headI)) []) ∧
        ((analyze_db_structure (Conn.lite cur) "SQLite").2 = none ↔
          rows.all (sqliteRowOk cur) = true))) ∧
    (∀ (m : MongoDbRaising),
      (∀ e, m.collectionNamesR = Except.error e →
        analyze_db_structure (Conn.mongoR m) "MongoDB" =
          ([], some ("Error analyzing structure for MongoDB: " ++ e))) ∧
      (∀ names, m.collectionNamesR = Except.ok names →
        ((analyze_db_structure (Conn.mongoR m) "MongoDB").1 =
          (names.takeWhile (colOk m)).foldl (mongoOkStep m) []) ∧
        ((analyze_db_structure (Conn.mongoR m) "MongoDB").2 = none ↔
          names.all (colOk m) = true))) ∧
    (∀ conn : Conn, (analyze_db_structure conn "Amazon DynamoDB").2 = none) ∧
    (∀ (f : FirestoreClient),
      (∀ e, f.collectionsR = Except.error e →
        analyze_db_structure (Conn.fire f) "Firestore" =
          ([], some ("Error analyzing structure for Firestore: " ++ e))) ∧
      (∀ colls, f.collectionsR = Except.ok colls →
        ((analyze_db_structure (Conn.fire f) "Firestore").1 =
          (colls.takeWhile fireOk ++ (colls.dropWhile fireOk).take 1).foldl
            (fun a c => fireDocsLoop c.colId c.docs a) []) ∧
        ((analyze_db_structure (Conn.fire f) "Firestore").2 = none ↔
          colls.all fireOk = true))) ∧
    (∀ (c : BigQueryClient) e,
      c.queryResult ("SELECT * FROM `" ++ "BigQuery" ++ "` LIMIT 1")
        = Except.error e →
      analyze_db_structure (Conn.bigquery c) "BigQuery" =
        ([], some ("Error analyzing structure for BigQuery: " ++ e))) ∧
    ((analyze_db_structure
        (Conn.rel ⟨Except.ok [], fun _ => Except.ok []⟩) "PostgreSQL").1 =
      (analyze_db_structure
        (Conn.rel ⟨Except.ok [[]], fun _ => Except.ok []⟩) "PostgreSQL").1 ∧
     (analyze_db_structure
        (Conn.rel ⟨Except.ok [[]], fun _ => Except.ok []⟩) "PostgreSQL").2
       ≠ none) := by
  refine ⟨?_, ?_, ?_, ?_, ?_, ?_, ?_⟩
  · intro db_choice hrel cur
    constructor
    · intro e he
      have h2 : analyzeRel cur = ([], some e) := by rw [analyzeRel, he]
      rw [analyze_rel_dispatch _ _ hrel, h2]
      rfl
    · intro rows hq
      have hd := analyze_rel_dispatch cur db_choice hrel
      have hrl : analyzeRel cur = relLoop cur rows [] := by
        rw [analyzeRel, hq]
      have hfst : (analyze_db_structure (Conn.rel cur) db_choice).1 =
          (rows.takeWhile (rowOk cur)).foldl
            (fun d row => pyInsert d row.headI (rowMeta cur row.headI)) [] := by
        rw [hd, analyzeWrap, hrl, relLoop_fst]
      refine ⟨hfst, ?_, ?_⟩
      · rw [hd, analyzeWrap, hrl]
        have hiff := relLoop_snd_eq_none cur rows []
        cases hsn : (relLoop cur rows []).2 with
        | none => simpa [hsn] using hiff
        | some e =>
          rw [hsn] at hiff
          simpa [hsn] using hiff
      · intro hnod
        rw [hfst]
        have hmf := map_fst_optFold
          (fun d (row : List String) =>
            pyInsert d row.headI (rowMeta cur row.headI))
          List.headI (fun row : List String => some (rowMeta cur row.headI))
          (fun d x v hv => by rw [← Option.some.inj hv])
          (fun d x hv => Option.noConfusion hv)
          (rows.takeWhile (rowOk cur)) [] hnod (by simp)
        have hfilter : (rows.takeWhile (rowOk cur)).filter
            (fun x => (some (rowMeta cur x.headI)).isSome) =
            rows.takeWhile (rowOk cur) :=
          List.filter_eq_self.mpr (fun a _ => rfl)
        have hlen := congrArg List.length hmf
        rw [hfilter] at hlen
        simpa using hlen
  · intro cur
    constructor
    · intro e he
      have h2 : analyzeSqlite cur = ([], some e) := by rw [analyzeSqlite, he]
      have hd : analyze_db_structure (Conn.lite cur) "SQLite"
          = analyzeWrap "SQLite" (analyzeSqlite cur) := rfl
      rw [hd, h2]
      rfl
    · intro rows hq
      have h2 : analyzeSqlite cur = sqliteLoop cur rows [] := by
        rw [analyzeSqlite, hq]
      have hd : analyze_db_structure (Conn.lite cur) "SQLite"
          = analyzeWrap "SQLite" (analyzeSqlite cur) := rfl
      constructor
      · rw [hd, analyzeWrap, h2, sqliteLoop_fst]
      · rw [hd, analyzeWrap, h2]
        have hiff := sqliteLoop_snd_eq_none cur rows []
        cases hsn : (sqliteLoop cur rows []).2 with
        | none => simpa [hsn] using hiff
        | some e =>
          rw [hsn] at hiff
          simpa [hsn] using hiff
  · intro m
    constructor
    · intro e he
      have h2 : analyzeMongoR m = ([], some e) := by rw [analyzeMongoR, he]
      have hd : analyze_db_structure (Conn.mongoR m) "MongoDB"
          = analyzeWrap "MongoDB" (analyzeMongoR m) := rfl
      rw [hd, h2]
      rfl
    · intro names hq
      have h2 : analyzeMongoR m = mongoLoopR m names [] := by
        rw [analyzeMongoR, hq]
      have hd : analyze_db_structure (Conn.mongoR m) "MongoDB"
          = analyzeWrap "MongoDB" (analyzeMongoR m) := rfl
      constructor
      · rw [hd, analyzeWrap, h2, mongoLoopR_fst]
      · rw [hd, analyzeWrap, h2]
        have hiff := mongoLoopR_snd_eq_none m names []
        cases hsn : (mongoLoopR m names []).2 with
        | none => simpa [hsn] using hiff
        | some e =>
          rw [hsn] at hiff
          simpa [hsn] using hiff
  · intro conn
    rfl
  · intro f
    constructor
    · intro e he
      have h2 : analyzeFirestore f = ([], some e) := by
        rw [analyzeFirestore, he]
      have hd : analyze_db_structure (Conn.fire f) "Firestore"
          = analyzeWrap "Firestore" (analyzeFirestore f) := rfl
      rw [hd, h2]
      rfl
    · intro colls hq
      have h2 : analyzeFirestore f = fireLoop colls [] := by
        rw [analyzeFirestore, hq]
      have hd : analyze_db_structure (Conn.fire f) "Firestore"
          = analyzeWrap "Firestore" (analyzeFirestore f) := rfl
      constructor
      · rw [hd, analyzeWrap, h2, fireLoop_fst]
      · rw [hd, analyzeWrap, h2]
        have hiff := fireLoop_snd_eq_none colls []
        cases hsn : (fireLoop colls []).2 with
        | none => simpa [hsn] using hiff
        | some e =>
          rw [hsn] at hiff
          simpa [hsn] using hiff
  · intro c e he
    have h2 : analyzeBigQuery c "BigQuery" = ([], some e) := by
      rw [analyzeBigQuery, he]
    have hd : analyze_db_structure (Conn.bigquery c) "BigQuery"
        = analyzeWrap "BigQuery" (analyzeBigQuery c "BigQuery") := rfl
    rw [hd, h2]
    rfl
  · exact ⟨rfl, by decide⟩

/-- A cursor whose catalog's second row is an empty tuple, so indexing it
raises mid-loop. -/
def crashCursor : Cursor :=
  ⟨Except.ok [["a"], []], fun _ => Except.ok [["c1"]]⟩

/-- A MongoDB handle whose second collection's `find_one()` raises. -/
def crashMongo : MongoDbRaising :=
  ⟨Except.ok ["good", "bad"],
   fun c => if c = "bad" then Except.error "network unreachable"
     else Except.ok (some ["_id"])⟩

theorem analyze_mid_loop_failure_witness :
    (analyze_db_structure (Conn.rel crashCursor) "MySQL").1 =
      [("a", { columns := some ["c1"], keys := none })] ∧
    (analyze_db_structure (Conn.rel crashCursor) "MySQL").2 ≠ none ∧
    (analyze_db_structure (Conn.mongoR crashMongo) "MongoDB").1 =
      [("good", { columns := none, keys := some ["_id"] })] ∧
    (analyze_db_structure (Conn.mongoR crashMongo) "MongoDB").2 ≠ none := by
  have h := analyze_mid_loop_failure
  have hrel := (h.1 "MySQL" (Or.inr (Or.inl rfl)) crashCursor).2 [["a"], []] rfl
  have hm := (h.2.2.1 crashMongo).2 ["good", "bad"] rfl
  refine ⟨hrel.1.trans (by rfl), ?_, hm.1.trans (by rfl), ?_⟩
  · intro hn
    exact absurd (hrel.2.1.mp hn) (by decide)
  · intro hn
    exact absurd (hm.2.mp hn) (by decide)

/-- C7: `connect_to_db` never propagates an exception: its returned value
is the `try` body's result with every exception turned into the `None`
sentinel, any construction error is surfaced as the connection error
message, and for the inert `"None"` kind — or any label outside the nine
fixed values — no construction branch runs (`conn` is never bound, so the
final `return conn` raises, is caught, and `None` is returned). -/
theorem connect_catches_every_exception {H : Type} (db_choice : String)
    (env : ConnectEnv H) :
    ((connect_to_db db_choice env).1 = (connectTryBody env db_choice).toOption) ∧
    (∀ e, connectTryBody env db_choice = Except.error e →
      connect_to_db db_choice env =
        (none, some ("Error connecting to " ++ db_choice ++ ": " ++ e))) ∧
    (db_choice = "None" ∨ db_choice ∉ dbChoices →
      connectTryBody env db_choice = Except.error "UnboundLocalError" ∧
      connect_to_db db_choice env =
        (none, some ("Error connecting to " ++ db_choice ++
          ": UnboundLocalError"))) := by
  refine ⟨?_, ?_, ?_⟩
  · cases h : connectTryBody env db_choice <;>
      simp [connect_to_db, h, Except.toOption]
  · intro e he
    simp [connect_to_db, he]
  · rintro (rfl | hnine)
    · exact ⟨rfl, rfl⟩
    · have h1 : db_choice ≠ "PostgreSQL" := fun h => hnine (by simp [dbChoices, h])
      have h2 : db_choice ≠ "MySQL" := fun h => hnine (by simp [dbChoices, h])
      have h3 : db_choice ≠ "Microsoft SQL Server" :=
        fun h => hnine (by simp [dbChoices, h])
      have h4 : db_choice ≠ "SQLite" := fun h => hnine (by simp [dbChoices, h])
      have h5 : db_choice ≠ "MongoDB" := fun h => hnine (by simp [dbChoices, h])
      have h6 : db_choice ≠ "Amazon DynamoDB" :=
        fun h => hnine (by simp [dbChoices, h])
      have h7 : db_choice ≠ "Firestore" := fun h => hnine (by simp [dbChoices, h])
      have h8 : db_choice ≠ "BigQuery" := fun h => hnine (by simp [dbChoices, h])
      have hbody : connectTryBody env db_choice
          = Except.error "UnboundLocalError" := by
        simp [connectTryBody, h1, h2, h3, h4, h5, h6, h7, h8]
      refine ⟨hbody, ?_⟩
      simp only [connect_to_db, hbody]
      rw [String.append_assoc]
      rfl

theorem connect_catches_every_exception_witness :
    connect_to_db "None"
      (⟨Except.error "refused", Except.error "refused", Except.error "refused",
        Except.error "refused", Except.error "refused", Except.error "refused",
        Except.error "refused", Except.error "refused"⟩ : ConnectEnv Unit) =
      (none, some "Error connecting to None: UnboundLocalError") :=
  ((connect_catches_every_exception "None" _).2.2 (Or.inl rfl)).2

/-- C9: when the Connector fails (`connect_to_db` returns the `None`
sentinel), the "Analyze DB Details" action displays no structure mapping
(in particular, any structure it could display is empty), shows no
file-write success message, writes nothing to `db_structure.json`, and
registers no endpoints. -/
theorem analyze_action_noop_on_connect_failure (db_choice : String)
    (env : ConnectEnv Conn) (writeOk : Bool)
    (hfail : (connect_to_db db_choice env).1 = none) :
    (analyzeButtonHandler db_choice env writeOk).shownStructure = none ∧
    (∀ s, (analyzeButtonHandler db_choice env writeOk).shownStructure = some s
      → s = []) ∧
    (analyzeButtonHandler db_choice env writeOk).writtenFile = none ∧
    (analyzeButtonHandler db_choice env writeOk).successMessage = false ∧
    (analyzeButtonHandler db_choice env writeOk).addedRoutes = [] := by
  unfold analyzeButtonHandler
  rw [hfail]
  exact ⟨rfl, by intro s hs; exact Option.noConfusion hs, rfl, rfl, rfl⟩

/-- A connection environment in which every client constructor raises. -/
def envAllFail : ConnectEnv Conn :=
  ⟨Except.error "could not translate host name", Except.error "bad host",
   Except.error "bad host", Except.error "bad host", Except.error "bad host",
   Except.error "bad host", Except.error "bad host", Except.error "bad host"⟩

theorem analyze_action_noop_on_connect_failure_witness :
    (analyzeButtonHandler "PostgreSQL" envAllFail true).shownStructure = none ∧
    (analyzeButtonHandler "PostgreSQL" envAllFail true).writtenFile = none ∧
    (analyzeButtonHandler "PostgreSQL" envAllFail true).successMessage = false ∧
    (analyzeButtonHandler "PostgreSQL" envAllFail true).addedRoutes = [] := by
  have h := analyze_action_noop_on_connect_failure "PostgreSQL" envAllFail true rfl
  exact ⟨h.1, h.2.2.1, h.2.2.2.1, h.2.2.2.2⟩

theorem decodeStringList_map_str (l : List String) :
    decodeStringList (l.map Json.str) = some l := by
  induction l with
  | nil => rfl
  | cons s rest ih =>
    rw [List.map_cons, decodeStringList, ih]
    rfl

theorem jsonToMeta_metaToJson (m : TableMeta) :
    jsonToMeta (metaToJson m) = some m := by
  rcases hc : m.columns with _ | cols <;> rcases hk : m.keys with _ | ks <;>
    simp [metaToJson, jsonToMeta, hc, hk, decodeStringList_map_str] <;>
    cases m <;> simp_all

/-- C6: persisting a structure mapping (the JSON document `json.dump`
writes) and reloading it yields an object deep-equal to the in-memory
mapping: decoding the serialized document is the identity.  Proved for
every structure mapping, in particular every one `analyze_db_structure`
produces. -/
theorem structure_json_round_trip (s : DbStructure) :
    structureFromJson (structureToJson s) = some s := by
  rw [structureToJson, structureFromJson]
  induction s with
  | nil => rfl
  | cons p rest ih =>
    rw [List.map_cons, decodeEntries, jsonToMeta_metaToJson, ih]

theorem structure_json_round_trip_witness :
    structureFromJson (structureToJson
      [("users", { columns := some ["id", "name"], keys := none }),
       ("events", { columns := none, keys := some ["_id", "ts"] })]) =
      some [("users", { columns := some ["id", "name"], keys := none }),
            ("events", { columns := none, keys := some ["_id", "ts"] })] :=
  structure_json_round_trip
    [("users", { columns := some ["id", "name"], keys := none }),
     ("events", { columns := none, keys := some ["_id", "ts"] })]

/-- A structure mapping with two columnar entities followed by one
key-based entity. -/
def exampleMixed : DbStructure :=
  [("a", { columns := some ["x"], keys := none }),
   ("b", { columns := some ["y"], keys := none }),
   ("c", { columns := none, keys := some ["k"] })]

/-- C1 counterexample: on a structure mapping with two columnar entities
(`a`, `b`) followed by a key-based entity (`c`), the registered
`/a/{id}` handler does *not* return the column list of the entity iterated
last — `c` has no column list at all; the handler returns `c`'s table name
and query string but `b`'s column list, refuting the claim as stated. -/
theorem handler_last_entity_counterexample :
    (⟨"/a/{id}", HandlerKind.tableData⟩ : Route)
      ∈ (generate_fastapi_api exampleMixed).routes ∧
    exampleMixed.getLast? = some ("c", { columns := none, keys := some ["k"] }) ∧
    invoke (generate_fastapi_api exampleMixed)
        ⟨"/a/{id}", HandlerKind.tableData⟩ "1" =
      some (Response.tableData "c" ["y"] "SELECT * FROM c WHERE id = 1") ∧
    ¬ ∃ cols, ({ columns := none, keys := some ["k"] } : TableMeta).columns
        = some cols ∧
      invoke (generate_fastapi_api exampleMixed)
          ⟨"/a/{id}", HandlerKind.tableData⟩ "1" =
        some (Response.tableData "c" cols "SELECT * FROM c WHERE id = 1") := by
  refine ⟨by decide, rfl, rfl, ?_⟩
  rintro ⟨cols, hc, -⟩
  exact Option.noConfusion hc

/-- C1 (amended): every registered handler closes over the synthesis
loop's shared frame, not a per-entity snapshot: the frame's final `table`
is the entity iterated last and its final `columns` is the column list of
the last columnar entity.  In particular, whenever the entity iterated
last is columnar, invoking *any* registered `/{entity}/{id}` handler —
whatever entity its own path names — returns that last entity's table
name, column list, and query string. -/
theorem handlers_share_last_iteration_closure (db : DbStructure)
    (e : String) (m : TableMeta) (cols : List String)
    (hlast : db.getLast? = some (e, m)) (hcols : m.columns = some cols) :
    (generate_fastapi_api db).table = some e ∧
    (generate_fastapi_api db).columns = some cols ∧
    ∀ r ∈ (generate_fastapi_api db).routes, r.handler = HandlerKind.tableData →
      ∀ id, invoke (generate_fastapi_api db) r id =
        some (Response.tableData e cols
          ("SELECT * FROM " ++ e ++ " WHERE id = " ++ id)) := by
  obtain ⟨l, rfl⟩ := List.getLast?_eq_some_iff.mp hlast
  have htable : (generate_fastapi_api (l ++ [(e, m)])).table = some e := by
    rw [generate_fastapi_api, foldl_genStep_table, List.getLast?_concat]
  have hcolumns : (generate_fastapi_api (l ++ [(e, m)])).columns = some cols := by
    rw [generate_fastapi_api, foldl_genStep_columns, List.foldl_append,
      List.foldl_cons, List.foldl_nil, hcols]
  refine ⟨htable, hcolumns, ?_⟩
  intro r _ hr id
  rw [invoke, hr]
  rw [get_table_data, htable, hcolumns]

/-- Two columnar entities, the second iterated last. -/
def exampleTwoColumnar : DbStructure :=
  [("a", { columns := some ["x"], keys := none }),
   ("b", { columns := some ["y"], keys := none })]

theorem handlers_share_last_iteration_closure_witness :
    (generate_fastapi_api exampleTwoColumnar).table = some "b" ∧
    invoke (generate_fastapi_api exampleTwoColumnar)
        ⟨"/a/{id}", HandlerKind.tableData⟩ "7" =
      some (Response.tableData "b" ["y"] "SELECT * FROM b WHERE id = 7") := by
  have h := handlers_share_last_iteration_closure exampleTwoColumnar
    "b" { columns := some ["y"], keys := none } ["y"] rfl rfl
  refine ⟨h.1, ?_⟩
  have := h.2.2 ⟨"/a/{id}", HandlerKind.tableData⟩ (by decide) rfl "7"
  simpa using this

/-- A columnar entity `a` and a key-based entity literally named
`a/{id}`, whose two synthesized paths collide. -/
def exampleCollide : DbStructure :=
  [("a", { columns := some ["x"], keys := none }),
   ("a/{id}", { columns := none, keys := some ["k"] })]

/-- C3 counterexample: with one columnar entity `a` and one key-based
entity named `a/{id}`, the synthesizer registers N+M = 2 routes but the
two registered paths are the same string `/a/{id}`, so it does not
register 2 *distinct* paths. -/
theorem synthesizer_duplicate_path_counterexample :
    countColumnar exampleCollide + countKeyed exampleCollide = 2 ∧
    (generate_fastapi_api exampleCollide).routes.map Route.path
      = ["/a/{id}", "/a/{id}"] ∧
    ¬ ((generate_fastapi_api exampleCollide).routes.map Route.path).Nodup := by
  refine ⟨rfl, rfl, ?_⟩
  decide

/-- C3 (amended): for a structure mapping with N columnar and M key-based
entities, the synthesizer registers exactly N+M routes on the shared app —
one `/{entity}/{id}` per columnar entity and one `/{entity}` per key-based
entity — and the returned mapping sends every entity name to the path of
its surviving registration; the N+M paths are pairwise distinct provided
no entity name equals another entity's name followed by `/{id}` (entity
names, being dict keys, are already distinct). -/
theorem synthesizer_registers_all_routes (db : DbStructure)
    (hnod : (db.map Prod.fst).Nodup)
    (hdisj : ∀ p ∈ db, ∀ q ∈ db, p.2.columns.isSome = true →
      q.2.keys.isSome = true → q.1 ≠ p.1 ++ "/{id}") :
    (generate_fastapi_api db).routes.length
      = countColumnar db + countKeyed db ∧
    (∀ p ∈ db, p.2.columns.isSome = true →
      (⟨"/" ++ p.1 ++ "/{id}", HandlerKind.tableData⟩ : Route)
        ∈ (generate_fastapi_api db).routes) ∧
    (∀ p ∈ db, p.2.keys.isSome = true →
      (⟨"/" ++ p.1, HandlerKind.collectionData⟩ : Route)
        ∈ (generate_fastapi_api db).routes) ∧
    ((generate_fastapi_api db).routes.map Route.path).Nodup ∧
    (∀ p ∈ db, pyLookup (generate_fastapi_api db).endpoints p.1
      = entryEndpoint p) := by
  have hroutes : (generate_fastapi_api db).routes = db.flatMap entryRoutes := by
    rw [generate_fastapi_api, foldl_genStep_routes]
    rfl
  have hend : (generate_fastapi_api db).endpoints =
      db.foldl endpointsStep [] := by
    rw [generate_fastapi_api, foldl_genStep_endpoints]
  refine ⟨?_, ?_, ?_, ?_, ?_⟩
  · rw [hroutes, length_flatMap_entryRoutes]
  · intro p hp hc
    obtain ⟨c, hcv⟩ := Option.isSome_iff_exists.mp hc
    rw [hroutes]
    exact List.mem_flatMap.mpr ⟨p, hp, by simp [entryRoutes, hcv]⟩
  · intro p hp hk
    obtain ⟨k, hkv⟩ := Option.isSome_iff_exists.mp hk
    rw [hroutes]
    exact List.mem_flatMap.mpr ⟨p, hp, by simp [entryRoutes, hkv]⟩
  · rw [hroutes]
    exact nodup_paths_flatMap db hnod hdisj
  · intro p hp
    rw [hend]
    rw [pyLookup_optFold endpointsStep Prod.fst entryEndpoint
      (fun d x v hv => by simp [endpointsStep, hv])
      (fun d x hv => by simp [endpointsStep, hv]) db [] p.1 hnod]
    rw [find?_entry_of_nodup db p.1 p.2 hnod hp]
    rcases he : entryEndpoint p with _ | v
    · simp [Prod.mk.eta, he, pyLookup]
    · simp [Prod.mk.eta, he]

/-- One columnar and one key-based entity with distinct benign names. -/
def exampleTwoKinds : DbStructure :=
  [("users", { columns := some ["id"], keys := none }),
   ("events", { columns := none, keys := some ["ts"] })]

theorem synthesizer_registers_all_routes_witness :
    (generate_fastapi_api exampleTwoKinds).routes.length =
      countColumnar exampleTwoKinds + countKeyed exampleTwoKinds ∧
    ((generate_fastapi_api exampleTwoKinds).routes.map Route.path).Nodup ∧
    pyLookup (generate_fastapi_api exampleTwoKinds).endpoints "users"
      = entryEndpoint ("users", { columns := some ["id"], keys := none }) := by
  have h := synthesizer_registers_all_routes exampleTwoKinds (by decide)
    (by decide)
  exact ⟨h.1, h.2.2.2.1,
    h.2.2.2.2 ("users", { columns := some ["id"], keys := none }) (by decide)⟩

theorem entryEndpoint_isSome (p : String × TableMeta) :
    (entryEndpoint p).isSome = (p.2.columns.isSome || p.2.keys.isSome) := by
  rcases hc : p.2.columns with _ | cols <;> rcases hk : p.2.keys with _ | ks <;>
    simp [entryEndpoint, hc, hk]

/-- C10: an entity whose metadata has both a `columns` and a `keys` list
gets both of its routes registered (the two branches are independent `if`
statements), but the returned endpoint mapping binds the entity only to
`/{entity}` — the keys branch overwrites the columns branch's entry — so
the returned mapping names strictly fewer paths than were registered. -/
theorem both_branch_entity_overwritten (db : DbStructure)
    (hnod : (db.map Prod.fst).Nodup) (e : String) (m : TableMeta)
    (hmem : (e, m) ∈ db) (hc : m.columns.isSome = true)
    (hk : m.keys.isSome = true) :
    (⟨"/" ++ e ++ "/{id}", HandlerKind.tableData⟩ : Route)
      ∈ (generate_fastapi_api db).routes ∧
    (⟨"/" ++ e, HandlerKind.collectionData⟩ : Route)
      ∈ (generate_fastapi_api db).routes ∧
    pyLookup (generate_fastapi_api db).endpoints e = some ("/" ++ e) ∧
    (generate_fastapi_api db).endpoints.length
      < (generate_fastapi_api db).routes.length := by
  obtain ⟨c, hcv⟩ := Option.isSome_iff_exists.mp hc
  obtain ⟨k, hkv⟩ := Option.isSome_iff_exists.mp hk
  have hroutes : (generate_fastapi_api db).routes = db.flatMap entryRoutes := by
    rw [generate_fastapi_api, foldl_genStep_routes]
    rfl
  have hend : (generate_fastapi_api db).endpoints =
      db.foldl endpointsStep [] := by
    rw [generate_fastapi_api, foldl_genStep_endpoints]
  refine ⟨?_, ?_, ?_, ?_⟩
  · rw [hroutes]
    exact List.mem_flatMap.mpr ⟨(e, m), hmem, by simp [entryRoutes, hcv]⟩
  · rw [hroutes]
    exact List.mem_flatMap.mpr ⟨(e, m), hmem, by simp [entryRoutes, hkv]⟩
  · rw [hend]
    rw [pyLookup_optFold endpointsStep Prod.fst entryEndpoint
      (fun d x v hv => by simp [endpointsStep, hv])
      (fun d x hv => by simp [endpointsStep, hv]) db [] e hnod]
    rw [find?_entry_of_nodup db e m hnod hmem]
    simp [entryEndpoint, hkv]
  · have hmf := map_fst_optFold endpointsStep Prod.fst entryEndpoint
      (fun d x v hv => by simp [endpointsStep, hv])
      (fun d x hv => by simp [endpointsStep, hv]) db [] hnod (by simp)
    have hlen : (generate_fastapi_api db).endpoints.length =
        (db.filter (fun x => (entryEndpoint x).isSome)).length := by
      rw [hend]
      have := congrArg List.length hmf
      simpa using this
    have hfe : db.filter (fun x => (entryEndpoint x).isSome) =
        db.filter (fun p => p.2.columns.isSome || p.2.keys.isSome) :=
      List.filter_congr (fun a _ => entryEndpoint_isSome a)
    have hcount := count_filter_or_add_and db
    have hrlen : (generate_fastapi_api db).routes.length
        = countColumnar db + countKeyed db := by
      rw [hroutes, length_flatMap_entryRoutes]
    have hpos : 0 < (db.filter
        (fun p => p.2.columns.isSome && p.2.keys.isSome)).length :=
      List.length_pos.mpr (List.ne_nil_of_mem
        (List.mem_filter.mpr ⟨hmem, by simp [hc, hk]⟩))
    rw [hlen, hfe, hrlen]
    omega

/-- A single entity carrying both a columns and a keys list. -/
def exampleBoth : DbStructure :=
  [("t", { columns := some ["c"], keys := some ["k"] })]

theorem both_branch_entity_overwritten_witness :
    (⟨"/t/{id}", HandlerKind.tableData⟩ : Route)
      ∈ (generate_fastapi_api exampleBoth).routes ∧
    (⟨"/t", HandlerKind.collectionData⟩ : Route)
      ∈ (generate_fastapi_api exampleBoth).routes ∧
    pyLookup (generate_fastapi_api exampleBoth).endpoints "t" = some "/t" ∧
    (generate_fastapi_api exampleBoth).endpoints.length
      < (generate_fastapi_api exampleBoth).routes.length := by
  have h := both_branch_entity_overwritten exampleBoth (by decide) "t"
    { columns := some ["c"], keys := some ["k"] } (by decide) rfl rfl
  simpa using h
